import Mathlib

/-!
Verification of the StepUp order-and-payment reconciliation core.

This file is a shallow embedding, in Lean 4, of the order / cart / payment
code of the repository (app/crud/order.py, app/crud/cart.py,
app/crud/payment.py, app/api/endpoints/octo.py, app/services/octo.py),
together with theorems settling the specification claims about it.

Modelling conventions:
* Python floats (prices, totals) are modelled as rationals (ℚ); the
  epsilon-reconciliation logic of the source is kept structurally.
* The SQLAlchemy session is modelled by an explicit `DB` record; a commit
  is the point where the embedded functions produce an updated `DB`.
  Exceptions raised before any commit leave the store unchanged, which the
  embedding renders by returning the input `DB` unchanged in error cases,
  matching the source where every `raise` happens before the corresponding
  `commit`.
* Rows mutated in place by the ORM are modelled by functional update of
  the corresponding list entries.
* `StepUp.quantity` is a non-nullable integer column with default 0, so the
  source's `(slipper.quantity or 0)` is the identity and is modelled by the
  plain field.
-/

deriving instance DecidableEq for Except

namespace App

/-- Order lifecycle status (app/models/order.py, class OrderStatus). -/
inductive OrderStatus
  | PENDING
  | PAID
  | REFUNDED
deriving DecidableEq, Repr

/-- Payment status (app/models/payment.py, class PaymentStatus). -/
inductive PaymentStatus
  | CREATED
  | PENDING
  | PAID
  | FAILED
  | CANCELLED
  | REFUNDED
deriving DecidableEq, Repr

/-- Catalog product (app/models/stepup.py, class StepUp): id, available
quantity and current unit price. Read-only for the order core. -/
structure StepUp where
  id : Nat
  quantity : Nat
  price : ℚ
deriving DecidableEq, Repr

/-- Order row (app/models/order.py, class Order). `order_code` models the
public string column `order_id`; `id` is the integer primary key.
`created_at` is an abstract timestamp in seconds. -/
structure Order where
  id : Nat
  order_code : String
  user_id : Nat
  status : OrderStatus
  total_amount : ℚ
  notes : Option String
  idempotency_key : Option String
  payment_uuid : Option String
  created_at : Nat
deriving DecidableEq, Repr

/-- Order line row (app/models/order.py, class OrderItem). -/
structure OrderItem where
  order_id : Nat
  slipper_id : Nat
  quantity : Nat
  unit_price : ℚ
  total_price : ℚ
  notes : Option String
deriving DecidableEq, Repr

/-- Cart row (app/models/cart.py). One cart per user by intent. -/
structure Cart where
  id : Nat
  user_id : Nat
deriving DecidableEq, Repr

/-- Cart line row (app/models/cart.py, class CartItem). -/
structure CartItem where
  id : Nat
  cart_id : Nat
  slipper_id : Nat
  quantity : Nat
deriving DecidableEq, Repr

/-- Payment row (app/models/payment.py, class Payment). -/
structure Payment where
  id : Nat
  order_id : Option Nat
  shop_transaction_id : String
  octo_payment_uuid : Option String
  status : PaymentStatus
  raw : Option String
deriving DecidableEq, Repr

/-- The persistent store: every table plus primary-key counters. -/
structure DB where
  slippers : List StepUp
  orders : List Order
  orderItems : List OrderItem
  carts : List Cart
  cartItems : List CartItem
  payments : List Payment
  nextOrderId : Nat
  nextCartId : Nat
  nextCartItemId : Nat
deriving DecidableEq, Repr

/-- Look a product up by primary key. -/
def findStepUp (db : DB) (sid : Nat) : Option StepUp :=
  db.slippers.find? (fun s => s.id == sid)

/-- Available quantity of a product, 0 when the product does not exist. -/
def availQty (db : DB) (sid : Nat) : Nat :=
  ((findStepUp db sid).map (fun s => s.quantity)).getD 0

/-! ### String helpers

Python's `str.lower()` and `in` are modelled character-wise; the library's
`String.toLower`/`containsSubstr` are avoided because their compiled forms
do not reduce inside the kernel, which concrete witness evaluations need. -/

/-- Character-wise lowercasing, modelling Python `str.lower()`. -/
def strLower (s : String) : String := String.mk (s.data.map Char.toLower)

/-- Is `pat` a prefix of the second list? -/
def listPrefix : List Char → List Char → Bool
  | [], _ => true
  | _ :: _, [] => false
  | a :: as, b :: bs => a == b && listPrefix as bs

/-- Is `pat` a contiguous sublist of the second list? -/
def listInfix (pat : List Char) : List Char → Bool
  | [] => listPrefix pat []
  | c :: cs => listPrefix pat (c :: cs) || listInfix pat cs

/-- Python `pat in s` on strings. -/
def strContains (s pat : String) : Bool := listInfix pat.data s.data

/-! ### Webhook status vocabulary (app/api/endpoints/octo.py, octo_notify) -/

/-- The status mapping of octo_notify (octo.py lines 275-284), applied to the
already-lowercased external status string. -/
def mapNotifyStatus (status : String) : PaymentStatus :=
  if ["paid", "success", "succeeded", "paid_and_captured", "captured", "completed"].contains status then
    PaymentStatus.PAID
  else if ["refunded", "refund"].contains status then
    PaymentStatus.REFUNDED
  else if ["failed", "error"].contains status then
    PaymentStatus.FAILED
  else if ["cancelled", "canceled"].contains status then
    PaymentStatus.CANCELLED
  else
    PaymentStatus.PENDING

/-- The full mapping applied by octo_notify to the raw payload field:
`status = (payload.get("status") or "").lower()` followed by the vocabulary
table (octo.py lines 245 and 275-284). -/
def notifyMappedStatus (raw : Option String) : PaymentStatus :=
  mapNotifyStatus (strLower (raw.getD ""))

/-- Modelled from the spec: the webhook callback vocabulary table of spec §6,
rows in the order they are listed there. -/
def specWebhookVocabulary : List (List String × PaymentStatus) :=
  [ (["paid", "success", "succeeded", "paid_and_captured", "captured", "completed"], PaymentStatus.PAID),
    (["refunded", "refund"], PaymentStatus.REFUNDED),
    (["failed", "error"], PaymentStatus.FAILED),
    (["cancelled", "canceled"], PaymentStatus.CANCELLED) ]

/-- Modelled from the spec: case-insensitive (lowercased) lookup in the §6
vocabulary table; any unlisted or absent status maps to PENDING. -/
def specMapStatus (raw : Option String) : PaymentStatus :=
  let s := strLower (raw.getD "")
  match specWebhookVocabulary.find? (fun row => row.1.contains s) with
  | some row => row.2
  | none => PaymentStatus.PENDING

/-! ### Order creation (app/crud/order.py, create_order) -/

/-- Incoming line of an order-creation request
(app/schemas/order.py, OrderItemCreate; the client-sent unit price is
ignored by create_order). -/
structure OrderItemCreate where
  slipper_id : Nat
  quantity : Nat
  notes : Option String
deriving DecidableEq, Repr

/-- Order-creation request (app/schemas/order.py, OrderCreate).
`order_id` is the optional public code. -/
structure OrderCreate where
  order_id : Option String
  user_id : Nat
  items : List OrderItemCreate
  notes : Option String
deriving DecidableEq, Repr

/-- Errors raised by create_order as ValueError in the source; the
stock error message carries the requested and available quantities
(order.py lines 195-197 and 261-264). -/
inductive OrderError
  | productNotFound (slipper_id : Nat)
  | stockExceeded (slipper_id requested available : Nat)
deriving DecidableEq, Repr

/-- app/core/config.py: ORDER_MAX_QTY_PER_ITEM, hard upper bound per line. -/
def ORDER_MAX_QTY_PER_ITEM : Nat := 50

/-- Per-line clamp used on every path of create_order. -/
def clampQty (q : Nat) : Nat :=
  if q > ORDER_MAX_QTY_PER_ITEM then ORDER_MAX_QTY_PER_ITEM else q

/-- Recency window of the merge-fallback target (order.py line 163:
five minutes), in seconds. -/
def MERGE_WINDOW_SECONDS : Nat := 300

/-- `requested[sid] = requested.get(sid, 0) + q` on a Python dict that
preserves insertion order (order.py line 249). -/
def requestedAdd : List (Nat × Nat) → Nat → Nat → List (Nat × Nat)
  | [], sid, q => [(sid, q)]
  | p :: rest, sid, q =>
      if p.1 == sid then (p.1, p.2 + q) :: rest else p :: requestedAdd rest sid q

/-- First pass of the fresh path (order.py lines 243-251): aggregate the
clamped requested quantity per product. -/
def aggregateRequested (items : List OrderItemCreate) : List (Nat × Nat) :=
  items.foldl (fun acc it => requestedAdd acc it.slipper_id (clampQty it.quantity)) []

/-- Quantity recorded for a product in an aggregation dict, 0 if absent. -/
def reqQty (l : List (Nat × Nat)) (sid : Nat) : Nat :=
  ((l.find? (fun p => p.1 == sid)).map (fun p => p.2)).getD 0

/-- Stock validation of the fresh path (order.py lines 253-264): every
distinct product must exist and its aggregated quantity must not exceed the
available stock; the first violation is raised. -/
def validateStock (db : DB) : List (Nat × Nat) → Option OrderError
  | [] => none
  | (sid, qty) :: rest =>
      match findStepUp db sid with
      | none => some (OrderError.productNotFound sid)
      | some s =>
          if qty > s.quantity then some (OrderError.stockExceeded sid qty s.quantity)
          else validateStock db rest

/-- Consolidation of the in-batch item list (order.py lines 288-303): the
first line with this product is merged in place (quantity summed, price
re-snapshotted, notes kept unless previously empty), otherwise a new line is
appended. `order_id` is assigned later. -/
def consolidate : List OrderItem → Nat → Nat → ℚ → Option String → List OrderItem
  | [], sid, q, up, notes =>
      [{ order_id := 0, slipper_id := sid, quantity := q, unit_price := up,
         total_price := up * (q : ℚ), notes := notes }]
  | oi :: rest, sid, q, up, notes =>
      if oi.slipper_id == sid then
        { oi with
          quantity := oi.quantity + q,
          unit_price := up,
          total_price := up * ((oi.quantity + q : Nat) : ℚ),
          notes := if notes.isSome && oi.notes.isNone then notes else oi.notes } :: rest
      else oi :: consolidate rest sid q up notes

/-- Second loop of the fresh path (order.py lines 267-303): re-fetch each
product, accumulate `total_amount` line by line (before consolidation, as in
the source), and consolidate the batch by product id. -/
def buildItems (db : DB) : List OrderItemCreate → ℚ → List OrderItem →
    Except OrderError (ℚ × List OrderItem)
  | [], total, acc => Except.ok (total, acc)
  | it :: rest, total, acc =>
      match findStepUp db it.slipper_id with
      | none => Except.error (OrderError.productNotFound it.slipper_id)
      | some s =>
          let qty := clampQty it.quantity
          buildItems db rest (total + s.price * (qty : ℚ))
            (consolidate acc it.slipper_id qty s.price it.notes)

/-- Replace the total_amount of the order with this primary key
(the ORM mutation plus commit of order.py). -/
def setOrderTotal (orders : List Order) (oid : Nat) (t : ℚ) : List Order :=
  orders.map (fun o => if o.id == oid then { o with total_amount := t } else o)

/-- Divergence threshold of the post-commit total reconciliation
(order.py line 358). -/
def EPS : ℚ := 1 / 1000000

/-- Sum of the persisted total_price of the items of an order
(order.py lines 352-357). -/
def sumTotalPrice (db : DB) (oid : Nat) : ℚ :=
  ((db.orderItems.filter (fun it => it.order_id == oid)).map (fun it => it.total_price)).sum

/-- Aggregated persisted quantity of a product inside an order. -/
def orderQty (db : DB) (oid sid : Nat) : Nat :=
  ((db.orderItems.filter (fun it => it.order_id == oid && it.slipper_id == sid)).map
    (fun it => it.quantity)).sum

/-- The fresh Order row inserted by the fresh path (order.py lines 305-325).
The public code is the provided one, or the string form of the fresh
primary key (a unique temporary placeholder is used at INSERT time in the
source and immediately replaced, with no observable difference). -/
def freshOrderRow (db : DB) (order : OrderCreate) (idempotency_key : Option String)
    (now : Nat) (total_amount : ℚ) : Order :=
  { id := db.nextOrderId,
    order_code := match order.order_id with
      | some c => c
      | none => toString db.nextOrderId,
    user_id := order.user_id, status := OrderStatus.PENDING,
    total_amount := total_amount, notes := order.notes,
    idempotency_key := idempotency_key, payment_uuid := none, created_at := now }

/-- Attach the consolidated batch honoring (order_id, slipper_id)
uniqueness against rows already stored for this order (order.py lines
327-346). The source keys the existing rows by slipper_id in a dict; a
well-formed store has at most one row per (order, product), which the
theorems assume. -/
def upsertBatch (db : DB) (newId : Nat) (batch : List OrderItem) : List OrderItem :=
  db.orderItems.map (fun dbit =>
    if dbit.order_id == newId then
      match batch.find? (fun b => b.slipper_id == dbit.slipper_id) with
      | some b =>
          { dbit with
            quantity := dbit.quantity + b.quantity,
            unit_price := b.unit_price,
            total_price := b.unit_price * ((dbit.quantity + b.quantity : Nat) : ℚ),
            notes := if b.notes.isSome && dbit.notes.isNone then b.notes else dbit.notes }
      | none => dbit
    else dbit) ++
  ((batch.filter (fun b =>
    !(((db.orderItems.filter (fun it => it.order_id == newId)).map
      (fun it => it.slipper_id)).contains b.slipper_id))).map
    (fun b => { b with order_id := newId }))

/-- The store right after the first commit of the fresh path. -/
def freshCommit (db : DB) (order : OrderCreate) (idempotency_key : Option String)
    (now : Nat) (total_amount : ℚ) (batch : List OrderItem) : DB :=
  { db with
    orders := db.orders ++ [freshOrderRow db order idempotency_key now total_amount],
    orderItems := upsertBatch db db.nextOrderId batch,
    nextOrderId := db.nextOrderId + 1 }

/-- Fresh-order path of create_order (order.py lines 241-373): validate
everything first, then insert the order row and its consolidated items in
one commit, then reconcile the stored total against the persisted item
totals (order.py lines 351-362). -/
def createFresh (db : DB) (order : OrderCreate) (idempotency_key : Option String)
    (now : Nat) : Except OrderError Order × DB :=
  match validateStock db (aggregateRequested order.items) with
  | some e => (Except.error e, db)
  | none =>
    match buildItems db order.items 0 [] with
    | Except.error e => (Except.error e, db)
    | Except.ok (total_amount, order_items) =>
      let db1 := freshCommit db order idempotency_key now total_amount order_items
      let exact := sumTotalPrice db1 db.nextOrderId
      if abs (total_amount - exact) > EPS then
        (Except.ok { freshOrderRow db order idempotency_key now total_amount with
           total_amount := exact },
         { db1 with orders := setOrderTotal db1.orders db.nextOrderId exact })
      else
        (Except.ok (freshOrderRow db order idempotency_key now total_amount), db1)

/-- Quantity of the first (on a well-formed order: the only) loaded item of
this product, 0 when absent — the source's
`existing_by_slipper.get(sid).quantity if sid in existing_by_slipper else 0`
(order.py line 193). -/
def qtyInAssoc (acc : List OrderItem) (sid : Nat) : Nat :=
  ((acc.find? (fun oi => oi.slipper_id == sid)).map (fun oi => oi.quantity)).getD 0

/-- In-place merge of an incoming quantity into the first loaded item of
this product (order.py lines 199-204). -/
def updateAssocItem (acc : List OrderItem) (sid inc : Nat) (up : ℚ) : List OrderItem :=
  match acc with
  | [] => []
  | oi :: rest =>
      if oi.slipper_id == sid then
        { oi with
          quantity := oi.quantity + inc,
          unit_price := up,
          total_price := up * ((oi.quantity + inc : Nat) : ℚ) } :: rest
      else oi :: updateAssocItem rest sid inc up

/-- Merge loop of the merge-fallback path (order.py lines 183-215): for every
incoming line, validate the merged quantity against stock, then either merge
into the existing item of the target order or stage a brand-new item. The
index of existing items is built once and never extended, exactly as the
source's `existing_by_slipper` dict. -/
def mergeLoop (db : DB) (tid : Nat) :
    List OrderItemCreate → List OrderItem → List OrderItem → ℚ →
    Except OrderError (List OrderItem × List OrderItem × ℚ)
  | [], acc, newItems, newTotal => Except.ok (acc, newItems, newTotal)
  | it :: rest, acc, newItems, newTotal =>
      match findStepUp db it.slipper_id with
      | none => Except.error (OrderError.productNotFound it.slipper_id)
      | some s =>
          let inc := clampQty it.quantity
          let already := qtyInAssoc acc it.slipper_id
          if already + inc > s.quantity then
            Except.error (OrderError.stockExceeded it.slipper_id (already + inc) s.quantity)
          else if (acc.find? (fun oi => oi.slipper_id == it.slipper_id)).isSome then
            mergeLoop db tid rest (updateAssocItem acc it.slipper_id inc s.price) newItems newTotal
          else
            let oi : OrderItem :=
              { order_id := tid, slipper_id := it.slipper_id, quantity := inc,
                unit_price := s.price, total_price := s.price * (inc : ℚ), notes := it.notes }
            mergeLoop db tid rest acc (newItems ++ [oi]) (newTotal + oi.total_price)

/-- Merge-fallback path of create_order (order.py lines 179-240): merge the
incoming lines into the target order, set the incrementally-built total,
commit, then recompute the total from the persisted items in a second
commit. -/
def mergeInto (db : DB) (t : Order) (order : OrderCreate) : Except OrderError Order × DB :=
  let acc0 := db.orderItems.filter (fun it => it.order_id == t.id)
  match mergeLoop db t.id order.items acc0 [] 0 with
  | Except.error e => (Except.error e, db)
  | Except.ok (accF, newF, newTotal) =>
    let current_total := (accF.map (fun it => it.total_price)).sum
    let db1 : DB :=
      { db with
        orders := setOrderTotal db.orders t.id (current_total + newTotal),
        orderItems := db.orderItems.filter (fun it => it.order_id != t.id) ++ accF ++ newF }
    let exact := sumTotalPrice db1 t.id
    let db2 : DB := { db1 with orders := setOrderTotal db1.orders t.id exact }
    (Except.ok { t with total_amount := exact }, db2)

/-- Idempotency lookup of create_order (order.py lines 140-157): an existing
order with this key for the same user. -/
def shortLookup (db : DB) (uid : Nat) : Option String → Option Order
  | some key =>
      db.orders.find? (fun o => o.idempotency_key == some key && o.user_id == uid)
  | none => none

/-- Pick the order with the greatest created_at (ORDER BY created_at DESC,
first row). -/
def latestBy : List Order → Option Order
  | [] => none
  | o :: rest =>
      match latestBy rest with
      | none => some o
      | some o2 => if o2.created_at > o.created_at then some o2 else some o

/-- Merge-target query (order.py lines 161-175): the user's most recent
PENDING order with no payment correlation id, created inside the recency
window. -/
def mergeCandidate (db : DB) (uid cutoff : Nat) : Option Order :=
  latestBy (db.orders.filter (fun o =>
    o.user_id == uid && o.status == OrderStatus.PENDING &&
    o.payment_uuid.isNone && decide (cutoff ≤ o.created_at)))

/-- create_order (app/crud/order.py lines 131-373). `now` stands for
`datetime.utcnow()`. -/
def create_order (db : DB) (order : OrderCreate) (idempotency_key : Option String)
    (merge_fallback : Bool) (now : Nat) : Except OrderError Order × DB :=
  match shortLookup db order.user_id idempotency_key with
  | some existing => (Except.ok existing, db)
  | none =>
    let tgt := if merge_fallback then
        mergeCandidate db order.user_id (now - MERGE_WINDOW_SECONDS)
      else none
    match tgt with
    | some t => mergeInto db t order
    | none => createFresh db order idempotency_key now

/-! ### Order status update (app/crud/order.py, update_order_status) -/

/-- get_order (order.py lines 16-27), relationship loading elided. -/
def get_order (db : DB) (oid : Nat) : Option Order :=
  db.orders.find? (fun o => o.id == oid)

/-- update_order_status (order.py lines 393-413): the status is overwritten
unconditionally, with no guard on the current status. -/
def update_order_status (db : DB) (oid : Nat) (st : OrderStatus) : Option Order × DB :=
  match get_order db oid with
  | none => (none, db)
  | some o =>
      (some { o with status := st },
       { db with orders := db.orders.map (fun x =>
          if x.id == oid then { x with status := st } else x) })

/-! ### Cart store (app/crud/cart.py) -/

/-- Errors raised as ValueError / MultipleResultsFound in app/crud/cart.py.
The stock error message carries the requested and available quantities
(cart.py lines 59-62 and 69-72). -/
inductive CartError
  | multipleResultsFound
  | stepUpNotFound
  | stockExceeded (requested available : Nat)
deriving DecidableEq, Repr

/-- The user's cart rows, in store order. -/
def userCarts (db : DB) (uid : Nat) : List Cart :=
  db.carts.filter (fun c => c.user_id == uid)

/-- The lines of a cart. -/
def cartLines (db : DB) (cid : Nat) : List CartItem :=
  db.cartItems.filter (fun ci => ci.cart_id == cid)

/-- get_or_create_cart (cart.py lines 23-37): return the user's cart,
creating and committing an empty one when absent. The source runs
`scalar_one_or_none` on the user's carts, which raises MultipleResultsFound
when more than one row exists. -/
def get_or_create_cart (db : DB) (uid : Nat) : Except CartError (Cart × DB) :=
  match userCarts db uid with
  | [] =>
      let c : Cart := { id := db.nextCartId, user_id := uid }
      Except.ok (c, { db with carts := db.carts ++ [c], nextCartId := db.nextCartId + 1 })
  | [c] => Except.ok (c, db)
  | _ :: _ :: _ => Except.error CartError.multipleResultsFound

/-- Incoming cart line (app/schemas/cart.py, CartItemCreate). -/
structure CartItemCreate where
  slipper_id : Nat
  quantity : Nat
deriving DecidableEq, Repr

/-- add_item (cart.py lines 47-75): fetch or create the cart, require the
product to exist, then merge into the first existing line for that product
or append a brand-new line, validating the resulting quantity against the
available stock. Errors are raised after the cart fetch commit, so a cart
created on the way persists even when the add fails. -/
def add_item (db : DB) (uid : Nat) (item : CartItemCreate) : Except CartError Cart × DB :=
  match get_or_create_cart db uid with
  | Except.error e => (Except.error e, db)
  | Except.ok (cart, db1) =>
    match findStepUp db1 item.slipper_id with
    | none => (Except.error CartError.stepUpNotFound, db1)
    | some s =>
      match (cartLines db1 cart.id).find? (fun ci => ci.slipper_id == item.slipper_id) with
      | some ci =>
          let new_qty := ci.quantity + item.quantity
          if new_qty > s.quantity then
            (Except.error (CartError.stockExceeded new_qty s.quantity), db1)
          else
            (Except.ok cart,
             { db1 with cartItems := db1.cartItems.map (fun x =>
                if x.id == ci.id then { x with quantity := new_qty } else x) })
      | none =>
          if item.quantity > s.quantity then
            (Except.error (CartError.stockExceeded item.quantity s.quantity), db1)
          else
            (Except.ok cart,
             { db1 with
               cartItems := db1.cartItems ++
                 [{ id := db1.nextCartItemId, cart_id := cart.id,
                    slipper_id := item.slipper_id, quantity := item.quantity }],
               nextCartItemId := db1.nextCartItemId + 1 })

/-- clear_cart (cart.py lines 108-113): fetch or create the cart and delete
all of its lines, keeping the cart row. -/
def clear_cart (db : DB) (uid : Nat) : Except CartError DB :=
  match get_or_create_cart db uid with
  | Except.error e => Except.error e
  | Except.ok (c, db1) =>
      Except.ok { db1 with cartItems := db1.cartItems.filter (fun ci => ci.cart_id != c.id) }

/-- get_cart_totals (cart.py lines 116-144): a pure read. When the user has
no cart row it returns (0, 0, 0.0) without creating anything; otherwise it
aggregates count, quantity and price*quantity over the cart's lines joined
to their products. `scalar_one_or_none` raises when the user has several
carts. -/
def get_cart_totals (db : DB) (uid : Nat) : Except CartError (Nat × Nat × ℚ) :=
  match userCarts db uid with
  | [] => Except.ok (0, 0, 0)
  | [c] =>
      let joined := (cartLines db c.id).filterMap
        (fun ci => (findStepUp db ci.slipper_id).map (fun s => (ci, s)))
      Except.ok (joined.length,
        (joined.map (fun x => x.1.quantity)).sum,
        (joined.map (fun x => x.2.price * (x.1.quantity : ℚ))).sum)
  | _ :: _ :: _ => Except.error CartError.multipleResultsFound

/-! ### Payment CRUD (app/crud/payment.py) -/

/-- get_payment_by_shop_tx (payment.py lines 31-33). -/
def get_payment_by_shop_tx (db : DB) (tx : String) : Option Payment :=
  db.payments.find? (fun p => p.shop_transaction_id == tx)

/-- get_payment_by_uuid (payment.py lines 36-38). -/
def get_payment_by_uuid (db : DB) (u : String) : Option Payment :=
  db.payments.find? (fun p => p.octo_payment_uuid == some u)

/-- update_payment_status (payment.py lines 41-57): overwrite the status,
keep the stored correlation id unless the call provides one, store the raw
payload snapshot. -/
def update_payment_status (db : DB) (pid : Nat) (st : PaymentStatus)
    (uuid : Option String) (raw : String) : DB :=
  { db with payments := db.payments.map (fun p =>
      if p.id == pid then
        { p with
          status := st,
          octo_payment_uuid := match uuid with | some u => some u | none => p.octo_payment_uuid,
          raw := some raw }
      else p) }

/-! ### Webhook reconciler (app/api/endpoints/octo.py, octo_notify) -/

/-- The payload fields octo_notify reads. `order_id` stands for the result
of probing order_id / orderId / extra.orderId (octo.py lines 259-263). -/
structure NotifyPayload where
  shop_transaction_id : Option String
  payment_uuid : Option String
  status : Option String
  order_id : Option Nat
deriving DecidableEq, Repr

/-- The inbound body: JSON, form-encoded, raw-bytes JSON, or malformed
(octo.py lines 219-239). -/
inductive NotifyBody
  | jsonBody (p : NotifyPayload)
  | formBody (p : NotifyPayload)
  | rawJsonBody (p : NotifyPayload)
  | malformed
deriving DecidableEq, Repr

/-- Body parsing of octo_notify: the three formats are attempted in order
and a malformed body falls back to the empty payload instead of failing the
request. -/
def parseNotifyBody : NotifyBody → NotifyPayload
  | NotifyBody.jsonBody p => p
  | NotifyBody.formBody p => p
  | NotifyBody.rawJsonBody p => p
  | NotifyBody.malformed => { shop_transaction_id := none, payment_uuid := none, status := none, order_id := none }

/-- Which best-effort internal steps of octo_notify raise; each of these is
wrapped in try/except in the source (octo.py lines 258-271, 302-322,
330-335). -/
structure NotifyFailures where
  bindOrderFails : Bool
  orderUpdateFails : Bool
  cartClearFails : Bool
  cacheInvalidationFails : Bool
deriving DecidableEq, Repr

/-- The webhook response body; every return site of octo_notify sends
an acknowledging payload. -/
structure NotifyResult where
  ok : Bool
deriving DecidableEq, Repr

/-- Payment lookup of octo_notify (octo.py lines 246-251): by shop-side
transaction id first, then by external correlation id. -/
def locatePayment (db : DB) (payload : NotifyPayload) : Option Payment :=
  let bySop := match payload.shop_transaction_id with
    | some tx => get_payment_by_shop_tx db tx
    | none => none
  match bySop with
  | some p => some p
  | none =>
      match payload.payment_uuid with
      | some u => get_payment_by_uuid db u
      | none => none

/-- Render an optional string the way the audit snapshot would. -/
def optStr : Option String → String
  | none => "None"
  | some s => s

/-- Bounded raw-payload snapshot, `str(payload)[:3900]` (octo.py line 298).
The exact `str()` rendering of the dict is irrelevant to every claim; the
model keeps the payload fields and the 3900-character bound. -/
def payloadRaw (p : NotifyPayload) : String :=
  String.mk ((optStr p.shop_transaction_id ++ "|" ++ optStr p.payment_uuid ++ "|" ++
    optStr p.status ++ "|" ++
    (match p.order_id with | none => "None" | some n => toString n)).data.take 3900)

/-- octo_notify (octo.py lines 217-336). The handler parses the body with
fallbacks, locates the payment, acknowledges and stops when none matches,
binds the payment to an order best-effort, maps and persists the payment
status, drives the order state machine, clears the payer's cart and emits
cache invalidation — and answers ok on every path; best-effort step
failures are swallowed. -/
def octo_notify (db : DB) (body : NotifyBody) (fail : NotifyFailures) : NotifyResult × DB :=
  let payload := parseNotifyBody body
  let status := strLower (payload.status.getD "")
  match locatePayment db payload with
  | none => ({ ok := true }, db)
  | some payment =>
    -- best-effort order binding (octo.py lines 257-271)
    let bound :=
      if payment.order_id.isNone && !fail.bindOrderFails then
        match payload.order_id with
        | some oid =>
            (( { payment with order_id := some oid } : Payment),
             { db with payments := db.payments.map (fun p =>
                if p.id == payment.id then { p with order_id := some oid } else p) })
        | none => (payment, db)
      else (payment, db)
    let payment2 := bound.1
    let db1 := bound.2
    let mapped := mapNotifyStatus status
    let db2 := update_payment_status db1 payment2.id mapped payload.payment_uuid (payloadRaw payload)
    let db3 :=
      match payment2.order_id with
      | some oid =>
          if mapped == PaymentStatus.PAID then
            if fail.orderUpdateFails then db2
            else
              let db3a := (update_order_status db2 oid OrderStatus.PAID).2
              if fail.cartClearFails then db3a
              else
                match get_order db3a oid with
                | some paid_order =>
                    match clear_cart db3a paid_order.user_id with
                    | Except.ok dbc => dbc
                    | Except.error _ => db3a
                | none => db3a
          else if mapped == PaymentStatus.REFUNDED then
            if fail.orderUpdateFails then db2
            else (update_order_status db2 oid OrderStatus.REFUNDED).2
          else db2
      | none => db2
    -- cache invalidation (octo.py lines 330-335) is fire-and-forget; a
    -- failure is swallowed and leaves no trace in the store.
    ({ ok := true }, db3)

/-- A webhook request body as the route actually receives it. The typed
constructor carries the bodies octo_notify survives; the two other
constructors are bodies on which the handler itself raises, outside every
try block (octo.py lines 243-245): a body whose successful JSON parse —
line 225, or line 237 on the raw-bytes fallback — is not an object, so
payload.get raises AttributeError; and an object whose truthy status field
is not a string, so .lower() raises AttributeError. -/
inductive OctoRequestBody
  | typed (b : NotifyBody)
  | jsonNonObject
  | nonStringStatus
deriving DecidableEq, Repr

/-- The notify route over its full input surface: on typed bodies it
behaves as octo_notify; on the two ill-typed bodies the AttributeError of
octo.py lines 243-245 escapes the handler (no try block surrounds them),
which FastAPI turns into an HTTP 500 — modelled as none. Both raises
happen before any store access, so the store is returned untouched. -/
def octo_notify_route (db : DB) (body : OctoRequestBody) (fail : NotifyFailures) :
    Option NotifyResult × DB :=
  match body with
  | OctoRequestBody.typed b =>
      let r := octo_notify db b fail
      (some r.1, r.2)
  | OctoRequestBody.jsonNonObject => (none, db)
  | OctoRequestBody.nonStringStatus => (none, db)

/-! ### Payment gateway client (app/services/octo.py)

The provider's JSON body is modelled as a string-keyed object: the whole
outbound POST plus `resp.json()` sits inside one `try/except Exception`
(octo.py lines 116-123 and 191-197), so an exception anywhere in the call
or in parsing surfaces as the `httpError` outcome. -/

/-- A loosely-typed JSON value of the provider response. -/
inductive JsonVal
  | jstr (s : String)
  | jnum (n : Int)
  | jbool (b : Bool)
  | jobj (fields : List (String × JsonVal))
  | jnull

/-- A JSON object: ordered string-keyed fields. -/
abbrev JsonObj := List (String × JsonVal)

/-- `data.get(k)`. -/
def jget (o : JsonObj) (k : String) : Option JsonVal :=
  (o.find? (fun kv => kv.1 == k)).map (fun kv => kv.2)

/-- Python truthiness of a JSON value: empty strings, zero, false, the
empty object and null are falsy. -/
def jtruthy : JsonVal → Bool
  | JsonVal.jstr s => !(s == "")
  | JsonVal.jnum n => !(n == 0)
  | JsonVal.jbool b => b
  | JsonVal.jobj f => !f.isEmpty
  | JsonVal.jnull => false

/-- A Python `a or b or ...` chain over JSON values (`none` stands for a
missing key, read as None): the first truthy operand, otherwise the last
operand as-is — even when falsy, exactly as `or` evaluates. -/
def orLast : List (Option JsonVal) → Option JsonVal
  | [] => none
  | [x] => x
  | some v :: rest => if jtruthy v then some v else orLast rest
  | none :: rest => orLast rest

/-- pydantic v2 validation of an Optional[str] field: None and strings
pass; any other value raises ValidationError at model construction,
modelled as none (int is not coerced to str in v2). -/
def optStrField : Option JsonVal → Option (Option String)
  | none => some none
  | some JsonVal.jnull => some none
  | some (JsonVal.jstr s) => some (some s)
  | some _ => none

/-- pydantic v2 validation of an Optional[int] field: None and integers
pass, integral strings are coerced in lax mode; anything else (bool
included) raises ValidationError, modelled as none. -/
def intField : Option JsonVal → Option (Option Int)
  | none => some none
  | some JsonVal.jnull => some none
  | some (JsonVal.jnum n) => some (some n)
  | some (JsonVal.jstr s) =>
      match s.toInt? with
      | some k => some (some k)
      | none => none
  | some _ => none

/-- `d = data.get("data") or {}` (services/octo.py line 132) followed by
`d.get(...)`: a falsy or missing data section becomes the empty object; a
truthy non-object section makes the later d.get raise AttributeError,
modelled as none. -/
def dataSection (data : JsonObj) : Option JsonObj :=
  match jget data "data" with
  | some dv =>
      if jtruthy dv then
        match dv with
        | JsonVal.jobj f => some f
        | _ => none
      else some []
  | none => some []

/-- Outcome of the outbound HTTP call: an exception raised during POST or
response parsing, or the parsed JSON value — which resp.json() does not
constrain to be an object. -/
inductive HttpOutcome
  | httpError (msg : String)
  | response (v : JsonVal)

/-- `data.get("error") == 0` (Python int comparison); the success condition
of both client calls (octo.py lines 125 and 199). -/
def errFieldIsZero (data : JsonObj) : Bool :=
  match jget data "error" with
  | some (JsonVal.jnum n) => n == 0
  | _ => false

/-- The OCTO settings read by the client (app/core/config.py); `none`
models an unset/empty (falsy) value. -/
structure OctoSettings where
  OCTO_SHOP_ID : Option String
  OCTO_SECRET : Option String
  OCTO_RETURN_URL : Option String
  OCTO_NOTIFY_URL : Option String
  OCTO_USD_UZS_RATE : Option Nat
deriving DecidableEq, Repr

/-- OctoPrepareResponse (services/octo.py lines 11-18). `errorCode` models
the `error` field. -/
structure OctoPrepareResponse where
  success : Bool
  shop_transaction_id : Option String
  octo_payment_UUID : Option String
  octo_pay_url : Option String
  errorCode : Option Int
  errMessage : Option String
  raw : JsonObj

/-- OctoRefundResponse (services/octo.py lines 20-24). -/
structure OctoRefundResponse where
  success : Bool
  errCode : Option Int
  errMessage : Option String
  raw : JsonObj

/-- A failed OctoPrepareResponse with a message. -/
def prepareFail (msg : String) (errorCode : Option Int) (raw : JsonObj) : OctoPrepareResponse :=
  { success := false, shop_transaction_id := none, octo_payment_UUID := none,
    octo_pay_url := none, errorCode := errorCode, errMessage := some msg, raw := raw }

/-- _extract_payment_uuid (services/octo.py lines 33-55): over the top-level
fields followed by the nested `data` section, collect string values whose
lowercased key contains both "payment" and "uuid", and return the first
candidate of length at least 8. -/
def extract_payment_uuid (data : JsonObj) : Option String :=
  let inner : JsonObj := match jget data "data" with
    | some (JsonVal.jobj f) => f
    | _ => []
  let candidates := (data ++ inner).filterMap (fun kv =>
    match kv.2 with
    | JsonVal.jstr v =>
        if strContains (strLower kv.1) "payment" && strContains (strLower kv.1) "uuid" then
          some v
        else none
    | _ => none)
  candidates.find? (fun c => decide (8 ≤ c.length))

/-- The missing-settings check of createPayment (octo.py lines 69-79). -/
def prepareMissingSettings (st : OctoSettings) : List String :=
  (if st.OCTO_SHOP_ID.isNone then ["OCTO_SHOP_ID"] else []) ++
  (if st.OCTO_SECRET.isNone then ["OCTO_SECRET"] else []) ++
  (if st.OCTO_RETURN_URL.isNone then ["OCTO_RETURN_URL"] else []) ++
  (if st.OCTO_NOTIFY_URL.isNone then ["OCTO_NOTIFY_URL"] else [])

/-- createPayment (services/octo.py lines 57-148). `shop_transaction_id`
stands for the generated uuid4; `outcome` for the behaviour of the external
provider on this call. Only the POST and resp.json() sit inside the try
block (lines 116-123), so after it the function can still raise: a
response that is valid JSON but not an object raises AttributeError at
data.get (line 125), a truthy non-object data section raises
AttributeError at d.get (line 133), and ill-typed error / errMessage /
uuid / url fields raise pydantic ValidationError while the response model
is constructed (lines 126-131, 142-148). A raise escaping the client is
modelled as none; every handled failure is a some-result with success =
false and an error message. -/
def createPayment (st : OctoSettings) (total_sum : Int) (description : String)
    (shop_transaction_id : String) (outcome : HttpOutcome) : Option OctoPrepareResponse :=
  if total_sum ≤ 0 then some (prepareFail "total_sum must be positive" none [])
  else
    let missing := prepareMissingSettings st
    if missing ≠ [] then
      some (prepareFail ("Missing settings: " ++ String.intercalate ", " missing) none [])
    else
      match outcome with
      | HttpOutcome.httpError e => some (prepareFail ("HTTP error: " ++ e) none [])
      | HttpOutcome.response v =>
          match v with
          | JsonVal.jobj data =>
              if !errFieldIsZero data then
                match optStrField (orLast [jget data "errMessage", jget data "errorMessage",
                    some (JsonVal.jstr "Unknown OCTO error")]) with
                | none => none
                | some msg =>
                    match intField (jget data "error") with
                    | none => none
                    | some ec =>
                        some { success := false, shop_transaction_id := none,
                               octo_payment_UUID := none, octo_pay_url := none,
                               errorCode := ec, errMessage := msg, raw := data }
              else
                match dataSection data with
                | none => none
                | some d =>
                    match optStrField (orLast
                        [jget data "octo_payment_UUID", jget d "octo_payment_UUID",
                         jget data "octo_payment_uuid", jget d "octo_payment_uuid",
                         jget data "payment_uuid", jget d "payment_uuid",
                         (extract_payment_uuid data).map JsonVal.jstr]) with
                    | none => none
                    | some pu =>
                        match optStrField (orLast
                            [jget data "octo_pay_url", jget d "octo_pay_url"]) with
                        | none => none
                        | some url =>
                            some { success := true,
                                   shop_transaction_id := some shop_transaction_id,
                                   octo_payment_UUID := pu, octo_pay_url := url,
                                   errorCode := none, errMessage := none, raw := data }
          | _ => none

/-- A failed OctoRefundResponse with a message. -/
def refundFail (msg : String) (raw : JsonObj) : OctoRefundResponse :=
  { success := false, errCode := none, errMessage := some msg, raw := raw }

/-- refundPayment (services/octo.py lines 150-206). As for createPayment,
only the POST and resp.json() are guarded (lines 191-197): a non-object
JSON response raises AttributeError at data.get (line 199) and a truthy
non-string errMessage raises pydantic ValidationError (lines 200-204),
both modelled as none. -/
def refundPayment (st : OctoSettings) (octo_payment_UUID : String) (amount : Int)
    (outcome : HttpOutcome) : Option OctoRefundResponse :=
  if octo_payment_UUID == "" then some (refundFail "payment UUID required" [])
  else if amount ≤ 0 then some (refundFail "amount must be positive" [])
  else
    let minCheck : Option OctoRefundResponse :=
      match st.OCTO_USD_UZS_RATE with
      | some rate =>
          if amount < (rate : Int) then
            some (refundFail ("Minimum refund is >= " ++ toString rate ++ " UZS (1 USD)") [])
          else none
      | none => none
    match minCheck with
    | some r => some r
    | none =>
        let missing :=
          (if st.OCTO_SHOP_ID.isNone then ["OCTO_SHOP_ID"] else []) ++
          (if st.OCTO_SECRET.isNone then ["OCTO_SECRET"] else [])
        if missing ≠ [] then
          some (refundFail ("Missing settings: " ++ String.intercalate ", " missing) [])
        else
          match outcome with
          | HttpOutcome.httpError e => some (refundFail ("HTTP error: " ++ e) [])
          | HttpOutcome.response v =>
              match v with
              | JsonVal.jobj data =>
                  if !errFieldIsZero data then
                    match optStrField (orLast [jget data "errMessage",
                        jget data "errorMessage",
                        some (JsonVal.jstr "Unknown OCTO error")]) with
                    | none => none
                    | some msg =>
                        some { success := false, errCode := none, errMessage := msg,
                               raw := data }
                  else
                    some { success := true, errCode := none, errMessage := none, raw := data }
              | _ => none

/-! ## Claim C6: webhook status vocabulary -/

/-- **C6.** For every inbound webhook payload, the external status string is
mapped case-insensitively (by lowercasing) to the internal Payment status by
the fixed vocabulary of spec §6: the PAID/REFUNDED/FAILED/CANCELLED token
rows, and every other string — including an absent status — maps to
PENDING; no status is dropped. The program's mapping (octo_notify) agrees
with the spec's vocabulary table on every payload. -/
theorem c6_webhook_vocabulary (raw : Option String) :
    notifyMappedStatus raw = specMapStatus raw := by
  simp only [notifyMappedStatus, specMapStatus, mapNotifyStatus, specWebhookVocabulary]
  cases h1 : ["paid", "success", "succeeded", "paid_and_captured", "captured",
      "completed"].contains (strLower (raw.getD "")) <;>
    cases h2 : ["refunded", "refund"].contains (strLower (raw.getD "")) <;>
      cases h3 : ["failed", "error"].contains (strLower (raw.getD "")) <;>
        cases h4 : ["cancelled", "canceled"].contains (strLower (raw.getD "")) <;>
          simp only [List.find?, h1, h2, h3, h4] <;> simp [h1, h2, h3, h4]

/-! ## Claim C7: the webhook handler always acknowledges -/

/-- A store with a single unlinked payment row. -/
def payW7 : Payment :=
  { id := 1
    order_id := none
    shop_transaction_id := "tx9"
    octo_payment_uuid := none
    status := PaymentStatus.CREATED
    raw := none }

def dbW7 : DB :=
  { slippers := [], orders := [], orderItems := [], carts := [], cartItems := [],
    payments := [payW7],
    nextOrderId := 1, nextCartId := 1, nextCartItemId := 1 }

/-- All four best-effort steps of octo_notify raise. -/
def allFail : NotifyFailures :=
  { bindOrderFails := true, orderUpdateFails := true, cartClearFails := true,
    cacheInvalidationFails := true }

/-- **C7.** The code violates the claim: the handler does not acknowledge
every inbound request. A body whose successful JSON parse is not an object
(for example the valid JSON list [1,2,3]), or an object whose truthy
status field is not a string (for example status 5), makes octo.py lines
243-245 raise AttributeError outside every try block, so the route answers
HTTP 500 (none) instead of the acknowledging response — the store is left
untouched only because the raise precedes every access. By contrast, the
bodies the triple parse fallback does catch are acknowledged even when all
four best-effort internal steps fail. -/
theorem c7_webhook_acknowledgment_gap :
    octo_notify_route dbW7 OctoRequestBody.jsonNonObject allFail = (none, dbW7) ∧
    octo_notify_route dbW7 OctoRequestBody.nonStringStatus allFail = (none, dbW7) ∧
    (octo_notify_route dbW7 OctoRequestBody.jsonNonObject allFail).1 ≠
      some { ok := true } ∧
    octo_notify_route dbW7 (OctoRequestBody.typed NotifyBody.malformed) allFail =
      (some { ok := true }, dbW7) := by
  refine ⟨by decide, by decide, by decide, by decide⟩

/-! ## Claim C1: a REFUNDED order and the PAID webhook transition -/

/-- A store with one REFUNDED order (id 1, owner 7) whose payment row
(shop-side transaction id "tx1") is linked to it. -/
def refundedOrderW1 : Order :=
  { id := 1
    order_code := "1"
    user_id := 7
    status := OrderStatus.REFUNDED
    total_amount := 10
    notes := none
    idempotency_key := none
    payment_uuid := some "uu"
    created_at := 0 }

def payW1 : Payment :=
  { id := 1
    order_id := some 1
    shop_transaction_id := "tx1"
    octo_payment_uuid := none
    status := PaymentStatus.CREATED
    raw := none }

def dbW1 : DB :=
  { slippers := [], orders := [refundedOrderW1], orderItems := [],
    carts := [], cartItems := [], payments := [payW1],
    nextOrderId := 2, nextCartId := 1, nextCartItemId := 1 }

/-- A provider callback reporting that payment as paid. -/
def bodyW1 : NotifyBody :=
  NotifyBody.jsonBody
    { shop_transaction_id := some "tx1"
      payment_uuid := none
      status := some "paid"
      order_id := none }

/-- No best-effort step of octo_notify raises. -/
def noFail : NotifyFailures :=
  { bindOrderFails := false, orderUpdateFails := false, cartClearFails := false,
    cacheInvalidationFails := false }

/-- **C1.** The code violates the claim: octo_notify drives the order state
machine through update_order_status, which overwrites the status with no
guard on the current one, so a callback whose mapped payment status is PAID
does move an already-REFUNDED order back to PAID. Evaluating the embedded
handler on a REFUNDED order and a "paid" callback yields the order in
status PAID. -/
theorem c1_refunded_order_set_paid_by_webhook :
    ((octo_notify dbW1 bodyW1 noFail).2.orders.find? (fun o => o.id == 1)).map
      (fun o => o.status) = some OrderStatus.PAID ∧
    OrderStatus.PAID ≠ OrderStatus.REFUNDED := by
  constructor
  · decide
  · decide

/-! ## Claim C10: reading cart totals never lazily creates a cart -/

/-- **C10.** For every user without a cart row, get_cart_totals returns
exactly (0, 0, 0.0) — and, being a pure read, creates nothing — while
get_or_create_cart for the same user creates and persists a fresh empty
cart for that user, leaving the cart lines table untouched. -/
theorem c10_totals_no_lazy_cart (db : DB) (uid : Nat)
    (h : userCarts db uid = [])
    (hfresh : ∀ ci ∈ db.cartItems, ci.cart_id ≠ db.nextCartId) :
    get_cart_totals db uid = Except.ok (0, 0, 0) ∧
    ∃ c db1, get_or_create_cart db uid = Except.ok (c, db1) ∧
      c.user_id = uid ∧
      db1.carts = db.carts ++ [c] ∧
      db1.cartItems = db.cartItems ∧
      cartLines db1 c.id = [] := by
  constructor
  · unfold get_cart_totals
    rw [h]
  · refine ⟨{ id := db.nextCartId, user_id := uid },
      { db with
        carts := db.carts ++ [{ id := db.nextCartId, user_id := uid }],
        nextCartId := db.nextCartId + 1 },
      ?_, rfl, rfl, rfl, ?_⟩
    · unfold get_or_create_cart
      rw [h]
    · unfold cartLines
      simp only [List.filter_eq_nil_iff]
      intro ci hci
      simpa using hfresh ci hci

/-- Witness for C10: a store with one product and no carts. -/
def dbW10 : DB :=
  { slippers := [{ id := 1, quantity := 5, price := 2 }], orders := [],
    orderItems := [], carts := [], cartItems := [], payments := [],
    nextOrderId := 1, nextCartId := 1, nextCartItemId := 1 }

/-! ## Claim C5: total reconciliation -/

/-- EPS is nonnegative. -/
theorem eps_nonneg : (0 : ℚ) ≤ EPS := by
  unfold EPS
  norm_num

/-- **C5.** Every order returned by create_order on the fresh path or the
merge path (the idempotency short-circuit, which returns a pre-existing
order verbatim, aside) has a total_amount within the reconciliation epsilon
of the sum of its persisted items' total_price: after commit the total is
recomputed from the persisted OrderItem totals and corrected whenever it
diverges by more than EPS. -/
theorem c5_total_reconciliation (db : DB) (ord : OrderCreate) (idk : Option String)
    (mf : Bool) (now : Nat) (o : Order) (db2 : DB)
    (hshort : shortLookup db ord.user_id idk = none)
    (h : create_order db ord idk mf now = (Except.ok o, db2)) :
    abs (o.total_amount - sumTotalPrice db2 o.id) ≤ EPS := by
  unfold create_order at h
  rw [hshort] at h
  cases htgt : (if mf then mergeCandidate db ord.user_id (now - MERGE_WINDOW_SECONDS)
      else none) with
  | some t =>
      rw [htgt] at h
      simp only [] at h
      unfold mergeInto at h
      simp only [] at h
      cases hml : mergeLoop db t.id ord.items
          (db.orderItems.filter (fun it => it.order_id == t.id)) [] 0 with
      | error e => rw [hml] at h; simp at h
      | ok r =>
          obtain ⟨accF, newF, newTotal⟩ := r
          rw [hml] at h
          simp only [] at h
          simp only [Prod.mk.injEq, Except.ok.injEq] at h
          obtain ⟨ho, hdb⟩ := h
          subst ho
          subst hdb
          simp only [sumTotalPrice]
          rw [sub_self, abs_zero]
          exact eps_nonneg
  | none =>
      rw [htgt] at h
      simp only [] at h
      unfold createFresh at h
      simp only [] at h
      cases hv : validateStock db (aggregateRequested ord.items) with
      | some e => rw [hv] at h; simp at h
      | none =>
          rw [hv] at h
          simp only [] at h
          cases hb : buildItems db ord.items 0 [] with
          | error e => rw [hb] at h; simp at h
          | ok r =>
              obtain ⟨ta, its⟩ := r
              rw [hb] at h
              simp only [] at h
              split at h
              · next habs =>
                  simp only [Prod.mk.injEq, Except.ok.injEq] at h
                  obtain ⟨ho, hdb⟩ := h
                  subst ho
                  subst hdb
                  simp only [sumTotalPrice]
                  rw [show (freshOrderRow db ord idk now ta).id = db.nextOrderId from rfl]
                  rw [sub_self, abs_zero]
                  exact eps_nonneg
              · next habs =>
                  simp only [Prod.mk.injEq, Except.ok.injEq] at h
                  obtain ⟨ho, hdb⟩ := h
                  subst ho
                  subst hdb
                  exact le_of_not_lt habs

/-! ## Claim C4: fresh-path atomicity of validation -/

/-- validateStock characterizes the error it raises: a stock error carries
the aggregated requested quantity of an entry of the checked dict together
with the product's stored availability, and a not-found error names a
product absent from the catalog. -/
theorem validateStock_some (db : DB) (l : List (Nat × Nat)) (e : OrderError)
    (h : validateStock db l = some e) :
    (∀ sid req avail, e = OrderError.stockExceeded sid req avail →
      avail < req ∧ (∃ s, findStepUp db sid = some s ∧ avail = s.quantity) ∧ (sid, req) ∈ l) ∧
    (∀ sid, e = OrderError.productNotFound sid → findStepUp db sid = none) := by
  induction l with
  | nil => simp [validateStock] at h
  | cons p rest ih =>
      obtain ⟨sid0, qty0⟩ := p
      simp only [validateStock] at h
      cases hf : findStepUp db sid0 with
      | none =>
          rw [hf] at h
          simp only [Option.some.injEq] at h
          subst h
          constructor
          · intro sid req avail heq
            simp at heq
          · intro sid heq
            obtain rfl : sid0 = sid := by
              cases heq
              rfl
            exact hf
      | some s =>
          rw [hf] at h
          simp only [] at h
          by_cases hq : qty0 > s.quantity
          · rw [if_pos hq] at h
            simp only [Option.some.injEq] at h
            subst h
            constructor
            · intro sid req avail heq
              obtain ⟨rfl, rfl, rfl⟩ : sid0 = sid ∧ qty0 = req ∧ s.quantity = avail := by
                cases heq
                exact ⟨rfl, rfl, rfl⟩
              exact ⟨hq, ⟨s, hf, rfl⟩, List.mem_cons_self _ _⟩
            · intro sid heq
              simp at heq
          · rw [if_neg hq] at h
            obtain ⟨ihA, ihB⟩ := ih h
            refine ⟨fun sid req avail heq => ?_, ihB⟩
            obtain ⟨a, b, c⟩ := ihA sid req avail heq
            exact ⟨a, b, List.mem_cons_of_mem _ c⟩

/-- buildItems raises only product-not-found errors, and only for products
absent from the catalog. -/
theorem buildItems_error (db : DB) (l : List OrderItemCreate) (t : ℚ)
    (acc : List OrderItem) (e : OrderError)
    (h : buildItems db l t acc = Except.error e) :
    ∃ sid, e = OrderError.productNotFound sid ∧ findStepUp db sid = none := by
  induction l generalizing t acc with
  | nil => simp [buildItems] at h
  | cons it rest ih =>
      simp only [buildItems] at h
      cases hf : findStepUp db it.slipper_id with
      | none =>
          rw [hf] at h
          simp only [Except.error.injEq] at h
          exact ⟨it.slipper_id, h.symm, hf⟩
      | some s =>
          rw [hf] at h
          simp only [] at h
          exact ih _ _ h

/-- **C4.** The fresh path of create_order (merge fallback disabled) is
atomic with respect to validation failures: whenever it fails with a
product-not-found or stock-exceeded error, the store it returns is exactly
the input store — no order row and no order item was persisted — and the
stock error names a requested quantity that is the aggregated one of the
request and exceeds the product's stored availability, while a not-found
error names a product absent from the catalog. -/
theorem c4_fresh_path_atomic_validation (db : DB) (ord : OrderCreate)
    (idk : Option String) (now : Nat) (e : OrderError)
    (h : (create_order db ord idk false now).1 = Except.error e) :
    (create_order db ord idk false now).2 = db ∧
    (∀ sid req avail, e = OrderError.stockExceeded sid req avail →
      avail < req ∧ (∃ s, findStepUp db sid = some s ∧ avail = s.quantity) ∧
      (sid, req) ∈ aggregateRequested ord.items) ∧
    (∀ sid, e = OrderError.productNotFound sid → findStepUp db sid = none) := by
  unfold create_order at h ⊢
  cases hs : shortLookup db ord.user_id idk with
  | some ex =>
      rw [hs] at h
      simp at h
  | none =>
      rw [hs] at h
      simp only [] at h
      rw [if_neg (show ¬((false : Bool) = true) by decide)] at h ⊢
      simp only [] at h ⊢
      unfold createFresh at h ⊢
      simp only [] at h ⊢
      cases hv : validateStock db (aggregateRequested ord.items) with
      | some e0 =>
          rw [hv] at h
          simp only [] at h
          obtain rfl : e0 = e := by
            cases h
            rfl
          obtain ⟨hA, hB⟩ := validateStock_some db (aggregateRequested ord.items) _ hv
          exact ⟨rfl, hA, hB⟩
      | none =>
          rw [hv] at h
          simp only [] at h
          cases hb : buildItems db ord.items 0 [] with
          | error e1 =>
              rw [hb] at h
              simp only [] at h
              obtain rfl : e1 = e := by
                cases h
                rfl
              obtain ⟨sid, rfl, hnf⟩ := buildItems_error db ord.items 0 [] _ hb
              refine ⟨rfl, fun sid2 req avail heq => ?_, fun sid2 heq => ?_⟩
              · simp at heq
              · obtain rfl : sid = sid2 := by
                  cases heq
                  rfl
                exact hnf
          | ok r =>
              obtain ⟨ta, its⟩ := r
              rw [hb] at h
              simp only [] at h
              split at h <;> simp at h

/-- Store for the C4 witness: one product with stock 5. -/
def dbW4 : DB :=
  { slippers := [{ id := 1, quantity := 5, price := 10 }], orders := [],
    orderItems := [], carts := [], cartItems := [], payments := [],
    nextOrderId := 1, nextCartId := 1, nextCartItemId := 1 }

/-- Request for the C4 witness: ten units of the stock-5 product — the
spec's checkout scenario. -/
def ordW4 : OrderCreate :=
  { order_id := none, user_id := 7,
    items := [{ slipper_id := 1, quantity := 10, notes := none }], notes := none }

/-- Witness for C4: requesting 10 of a stock-5 product fails with the
stock-exceeded error naming requested=10, available=5, and persists
nothing. -/
theorem c4_witness :
    (create_order dbW4 ordW4 none false 0).1 =
      Except.error (OrderError.stockExceeded 1 10 5) ∧
    (create_order dbW4 ordW4 none false 0).2 = dbW4 ∧
    (5 : Nat) < 10 ∧ availQty dbW4 1 = 5 := by
  have herr : (create_order dbW4 ordW4 none false 0).1 =
      Except.error (OrderError.stockExceeded 1 10 5) := by decide
  have hmain := c4_fresh_path_atomic_validation dbW4 ordW4 none 0
    (OrderError.stockExceeded 1 10 5) herr
  exact ⟨herr, hmain.1, by decide, by decide⟩
def dbW5 : DB :=
  { slippers := [{ id := 1, quantity := 5, price := 10 }], orders := [],
    orderItems := [], carts := [], cartItems := [], payments := [],
    nextOrderId := 1, nextCartId := 1, nextCartItemId := 1 }

/-- Request for the C5 witness: three units of product 1. -/
def ordW5 : OrderCreate :=
  { order_id := none, user_id := 7,
    items := [{ slipper_id := 1, quantity := 3, notes := none }], notes := none }

/-- Witness for C5 at a concrete fresh-path creation. -/
theorem c5_witness :
    ∃ o db2, create_order dbW5 ordW5 none false 0 = (Except.ok o, db2) ∧
      abs (o.total_amount - sumTotalPrice db2 o.id) ≤ EPS := by
  have hok : create_order dbW5 ordW5 none false 0 =
      (Except.ok ((create_order dbW5 ordW5 none false 0).1.toOption.get
        (by with_unfolding_all decide)),
       (create_order dbW5 ordW5 none false 0).2) := by
    with_unfolding_all decide
  exact ⟨_, _, hok, c5_total_reconciliation dbW5 ordW5 none false 0 _ _ (by decide) hok⟩

/-- Witness for C10 at a concrete user with no cart. -/
theorem c10_witness :
    get_cart_totals dbW10 7 = Except.ok (0, 0, 0) ∧
    ∃ c db1, get_or_create_cart dbW10 7 = Except.ok (c, db1) ∧
      c.user_id = 7 ∧
      db1.carts = dbW10.carts ++ [c] ∧
      db1.cartItems = dbW10.cartItems ∧
      cartLines db1 c.id = [] :=
  c10_totals_no_lazy_cart dbW10 7 (by decide) (by decide)

/-! ## Claim C2: idempotent creation -/

/-- find? returns the unique element satisfying the predicate. -/
theorem find?_eq_some_of_unique {α : Type} (p : α → Bool) (l : List α) (x : α)
    (hx : x ∈ l) (hpx : p x = true) (huniq : ∀ y ∈ l, p y = true → y = x) :
    l.find? p = some x := by
  induction l with
  | nil => cases hx
  | cons a rest ih =>
      cases ha : p a with
      | true =>
          rw [List.find?_cons_of_pos _ ha]
          exact congrArg some (huniq a (List.mem_cons_self a rest) ha)
      | false =>
          rw [List.find?_cons_of_neg _ (by simp [ha])]
          rcases List.mem_cons.mp hx with rfl | hx2
          · rw [hpx] at ha
            cases ha
          · exact ih hx2 (fun y hy hpy => huniq y (List.mem_cons_of_mem _ hy) hpy)

/-- find? over a list whose prefix all fails the predicate finds the
appended element. -/
theorem find?_prefix_none {α : Type} (p : α → Bool) (l : List α) (x : α)
    (hl : ∀ y ∈ l, p y = false) (hx : p x = true) :
    (l ++ [x]).find? p = some x := by
  induction l with
  | nil => simp [List.find?, hx]
  | cons a rest ih =>
      rw [List.cons_append,
        List.find?_cons_of_neg _ (by simp [hl a (List.mem_cons_self a rest)])]
      exact ih (fun y hy => hl y (List.mem_cons_of_mem _ hy))

/-- Rewriting the total of the appended order: setOrderTotal on a list
ending in the row with that id is a field-preserving rewrite of the prefix
plus the corrected row. -/
theorem setOrderTotal_append (orders : List Order) (x : Order) (nid : Nat) (v : ℚ)
    (hx : x.id = nid) :
    ∃ g : Order → Order,
      setOrderTotal (orders ++ [x]) nid v =
        orders.map g ++ [{ x with total_amount := v }] ∧
      ∀ y, (g y).id = y.id ∧ (g y).idempotency_key = y.idempotency_key ∧
        (g y).user_id = y.user_id ∧ (g y).status = y.status ∧
        (g y).payment_uuid = y.payment_uuid ∧ (g y).created_at = y.created_at := by
  subst hx
  refine ⟨fun y => if (y.id == x.id) = true then { y with total_amount := v } else y, ?_, ?_⟩
  · simp only [setOrderTotal, List.map_append]
    congr 1
    simp
  · intro y
    simp only []
    by_cases hy : (y.id == x.id) = true
    · rw [if_pos hy]
      exact ⟨rfl, rfl, rfl, rfl, rfl, rfl⟩
    · rw [if_neg hy]
      exact ⟨rfl, rfl, rfl, rfl, rfl, rfl⟩

/-- Shape of a successful fresh-path creation: the returned order carries
the fresh primary key, the caller's user id and the supplied idempotency
key, and the resulting order table is the old one — rewritten by a function
that can only touch total_amount — with the new order appended. -/
theorem createFresh_ok (db : DB) (ord : OrderCreate) (idk : Option String) (now : Nat)
    (o : Order) (db2 : DB) (h : createFresh db ord idk now = (Except.ok o, db2)) :
    o.id = db.nextOrderId ∧ o.user_id = ord.user_id ∧ o.idempotency_key = idk ∧
    ∃ g : Order → Order, db2.orders = db.orders.map g ++ [o] ∧
      ∀ x, (g x).id = x.id ∧ (g x).idempotency_key = x.idempotency_key ∧
        (g x).user_id = x.user_id ∧ (g x).status = x.status ∧
        (g x).payment_uuid = x.payment_uuid ∧ (g x).created_at = x.created_at := by
  unfold createFresh at h
  cases hv : validateStock db (aggregateRequested ord.items) with
  | some e => rw [hv] at h; simp at h
  | none =>
      rw [hv] at h
      simp only [] at h
      cases hb : buildItems db ord.items 0 [] with
      | error e => rw [hb] at h; simp at h
      | ok r =>
          obtain ⟨ta, its⟩ := r
          rw [hb] at h
          simp only [] at h
          split at h
          · next habs =>
              simp only [Prod.mk.injEq, Except.ok.injEq] at h
              obtain ⟨ho, hdb⟩ := h
              subst ho
              subst hdb
              refine ⟨rfl, rfl, rfl, ?_⟩
              obtain ⟨g, hgeq, hgprops⟩ := setOrderTotal_append db.orders
                (freshOrderRow db ord idk now ta) db.nextOrderId
                (sumTotalPrice (freshCommit db ord idk now ta its) db.nextOrderId) rfl
              exact ⟨g, hgeq, hgprops⟩
          · next habs =>
              simp only [Prod.mk.injEq, Except.ok.injEq] at h
              obtain ⟨ho, hdb⟩ := h
              subst ho
              subst hdb
              refine ⟨rfl, rfl, rfl, id, ?_, fun x => ⟨rfl, rfl, rfl, rfl, rfl, rfl⟩⟩
              simp [freshCommit]

/-- Shape of a successful merge-path creation: the returned order keeps the
target's primary key, and the order table is rewritten by a function that
can only touch total_amount. -/
theorem mergeInto_ok (db : DB) (t : Order) (ord : OrderCreate) (o : Order) (db2 : DB)
    (h : mergeInto db t ord = (Except.ok o, db2)) :
    o.id = t.id ∧ o.idempotency_key = t.idempotency_key ∧
    ∃ g : Order → Order, db2.orders = db.orders.map g ∧
      ∀ x, (g x).id = x.id ∧ (g x).idempotency_key = x.idempotency_key ∧
        (g x).user_id = x.user_id ∧ (g x).status = x.status ∧
        (g x).payment_uuid = x.payment_uuid ∧ (g x).created_at = x.created_at := by
  unfold mergeInto at h
  simp only [] at h
  cases hml : mergeLoop db t.id ord.items
      (db.orderItems.filter (fun it => it.order_id == t.id)) [] 0 with
  | error e => rw [hml] at h; simp at h
  | ok r =>
      obtain ⟨accF, newF, newTotal⟩ := r
      rw [hml] at h
      simp only [] at h
      simp only [Prod.mk.injEq, Except.ok.injEq] at h
      obtain ⟨ho, hdb⟩ := h
      subst ho
      subst hdb
      refine ⟨rfl, rfl, ?_⟩
      simp only [setOrderTotal, List.map_map]
      refine ⟨_, rfl, ?_⟩
      intro x
      by_cases hx : x.id == t.id
      · simp only [Function.comp, hx, if_pos]
        simp
      · simp only [Function.comp]
        rw [if_neg hx]
        rw [if_neg hx]
        exact ⟨rfl, rfl, rfl, rfl, rfl, rfl⟩

/-- latestBy commutes with a created_at-preserving rewrite of the list. -/
theorem latestBy_map (g : Order → Order) (hg : ∀ x, (g x).created_at = x.created_at)
    (l : List Order) : latestBy (l.map g) = (latestBy l).map g := by
  induction l with
  | nil => rfl
  | cons o rest ih =>
      simp only [List.map_cons, latestBy, ih]
      cases latestBy rest with
      | none => rfl
      | some o2 =>
          rw [show Option.map g (some o2) = some (g o2) from rfl]
          simp only []
          rw [hg o2, hg o]
          by_cases hc : o2.created_at > o.created_at
          · rw [if_pos hc, if_pos hc]
            rfl
          · rw [if_neg hc, if_neg hc]
            rfl

/-- filter commutes with a predicate-preserving rewrite of the list. -/
theorem filter_map_of_pred {α : Type} (g : α → α) (p : α → Bool)
    (hp : ∀ x, p (g x) = p x) (l : List α) :
    (l.map g).filter p = (l.filter p).map g := by
  induction l with
  | nil => rfl
  | cons a rest ih =>
      cases hpa : p a with
      | true => simp [List.filter_cons, hp, hpa, ih]
      | false => simp [List.filter_cons, hp, hpa, ih]

/-- **C2.** Order creation is idempotent per (user, idempotency key).
First conjunct: when an order with the supplied key already exists for the
same user (necessarily uniquely, per the store's unique index on the key),
create_order returns that order verbatim and the store is unchanged — no
new row, no re-validation, no re-pricing. Second conjunct: starting from a
store with no order under that (user, key), two successive identical
create_order calls that both succeed return the same order id. -/
theorem c2_idempotent_creation (db : DB) (ord : OrderCreate) (k : String)
    (mf : Bool) (now : Nat) :
    (∀ o, o ∈ db.orders → o.idempotency_key = some k → o.user_id = ord.user_id →
      (∀ o2 ∈ db.orders, o2.idempotency_key = some k → o2.user_id = ord.user_id → o2 = o) →
      create_order db ord (some k) mf now = (Except.ok o, db)) ∧
    (∀ o1 db1 o2 db2,
      (∀ o ∈ db.orders, ¬(o.idempotency_key = some k ∧ o.user_id = ord.user_id)) →
      create_order db ord (some k) mf now = (Except.ok o1, db1) →
      create_order db1 ord (some k) mf now = (Except.ok o2, db2) →
      o2.id = o1.id) := by
  constructor
  · intro o ho hkey huser huniq
    have hfind : db.orders.find?
        (fun x => x.idempotency_key == some k && x.user_id == ord.user_id) = some o := by
      apply find?_eq_some_of_unique _ _ _ ho (by simp [hkey, huser])
      intro y hy hpy
      simp only [Bool.and_eq_true, beq_iff_eq] at hpy
      exact huniq y hy hpy.1 hpy.2
    unfold create_order shortLookup
    simp only []
    rw [hfind]
  · intro o1 db1 o2 db2 hNoKey h1 h2
    have hpfalse : ∀ y ∈ db.orders,
        (y.idempotency_key == some k && y.user_id == ord.user_id) = false := by
      intro y hy
      have := hNoKey y hy
      by_cases h1k : y.idempotency_key = some k
      · by_cases h2u : y.user_id = ord.user_id
        · exact absurd ⟨h1k, h2u⟩ this
        · simp [h2u]
      · simp [h1k]
    have hshort1 : shortLookup db ord.user_id (some k) = none := by
      unfold shortLookup
      apply List.find?_eq_none.mpr
      intro x hx
      simp [hpfalse x hx]
    unfold create_order at h1
    rw [hshort1] at h1
    simp only [] at h1
    cases mf with
    | false =>
        rw [if_neg (show ¬((false : Bool) = true) by decide)] at h1
        simp only [] at h1
        obtain ⟨hid, huser, hkey, g, horders, hg⟩ := createFresh_ok db ord (some k) now o1 db1 h1
        have hfind1 : db1.orders.find?
            (fun x => x.idempotency_key == some k && x.user_id == ord.user_id) = some o1 := by
          rw [horders]
          apply find?_prefix_none
          · intro y hy
            obtain ⟨x, hx, rfl⟩ := List.mem_map.mp hy
            have hgx := hg x
            rw [show (g x).idempotency_key = x.idempotency_key from hgx.2.1,
              show (g x).user_id = x.user_id from hgx.2.2.1]
            exact hpfalse x hx
          · simp [hkey, huser]
        unfold create_order shortLookup at h2
        simp only [] at h2
        rw [hfind1] at h2
        simp only [Prod.mk.injEq, Except.ok.injEq] at h2
        rw [← h2.1]
    | true =>
        rw [if_pos rfl] at h1
        cases htgt : mergeCandidate db ord.user_id (now - MERGE_WINDOW_SECONDS) with
        | none =>
            rw [htgt] at h1
            simp only [] at h1
            obtain ⟨hid, huser, hkey, g, horders, hg⟩ :=
              createFresh_ok db ord (some k) now o1 db1 h1
            have hfind1 : db1.orders.find?
                (fun x => x.idempotency_key == some k && x.user_id == ord.user_id) = some o1 := by
              rw [horders]
              apply find?_prefix_none
              · intro y hy
                obtain ⟨x, hx, rfl⟩ := List.mem_map.mp hy
                have hgx := hg x
                rw [show (g x).idempotency_key = x.idempotency_key from hgx.2.1,
                  show (g x).user_id = x.user_id from hgx.2.2.1]
                exact hpfalse x hx
              · simp [hkey, huser]
            unfold create_order shortLookup at h2
            simp only [] at h2
            rw [hfind1] at h2
            simp only [Prod.mk.injEq, Except.ok.injEq] at h2
            rw [← h2.1]
        | some t =>
            rw [htgt] at h1
            simp only [] at h1
            obtain ⟨hid1, hkey1, g, horders, hg⟩ := mergeInto_ok db t ord o1 db1 h1
            have hshort2 : shortLookup db1 ord.user_id (some k) = none := by
              unfold shortLookup
              rw [horders]
              apply List.find?_eq_none.mpr
              intro y hy
              obtain ⟨x, hx, rfl⟩ := List.mem_map.mp hy
              have hgx := hg x
              simp only [Bool.and_eq_true, beq_iff_eq, hgx.2.1, hgx.2.2.1]
              have := hpfalse x hx
              intro hcontra
              simp only [Bool.and_eq_true, beq_iff_eq] at this
              rw [hcontra.1, hcontra.2] at this
              simp at this
            have hcand2 : mergeCandidate db1 ord.user_id (now - MERGE_WINDOW_SECONDS) =
                some (g t) := by
              unfold mergeCandidate at htgt ⊢
              rw [horders,
                filter_map_of_pred g _ (by
                  intro x
                  have hgx := hg x
                  rw [hgx.2.2.1]
                  rw [show (g x).status = x.status from hgx.2.2.2.1,
                    show (g x).payment_uuid = x.payment_uuid from hgx.2.2.2.2.1,
                    show (g x).created_at = x.created_at from hgx.2.2.2.2.2]),
                latestBy_map g (fun x => (hg x).2.2.2.2.2), htgt]
              rfl
            unfold create_order at h2
            rw [hshort2] at h2
            simp only [] at h2
            rw [if_pos trivial] at h2
            rw [hcand2] at h2
            simp only [] at h2
            obtain ⟨hid2, _, _⟩ := mergeInto_ok db1 (g t) ord o2 db2 h2
            rw [hid2, (hg t).1, hid1]

/-- Store for the C2 witness: one product and one order already created
under idempotency key "key-1" for user 7. -/
def existingW2 : Order :=
  { id := 1
    order_code := "1"
    user_id := 7
    status := OrderStatus.PENDING
    total_amount := 30
    notes := none
    idempotency_key := some "key-1"
    payment_uuid := none
    created_at := 0 }

def itemW2 : OrderItem :=
  { order_id := 1
    slipper_id := 1
    quantity := 3
    unit_price := 10
    total_price := 30
    notes := none }

def dbW2 : DB :=
  { slippers := [{ id := 1, quantity := 5, price := 10 }], orders := [existingW2],
    orderItems := [itemW2],
    carts := [], cartItems := [], payments := [],
    nextOrderId := 2, nextCartId := 1, nextCartItemId := 1 }

def ordW2 : OrderCreate :=
  { order_id := none, user_id := 7,
    items := [{ slipper_id := 1, quantity := 3, notes := none }], notes := none }

/-- Witness for C2: with the key already present for user 7, create_order
returns the stored order and leaves the store untouched. -/
theorem c2_witness :
    create_order dbW2 ordW2 (some "key-1") false 0 = (Except.ok existingW2, dbW2) :=
  (c2_idempotent_creation dbW2 ordW2 "key-1" false 0).1 existingW2
    (by with_unfolding_all decide) (by with_unfolding_all decide)
    (by with_unfolding_all decide) (by with_unfolding_all decide)

/-! ## Claim C9: cart add_item merging and stock check -/

/-- The lines of the user's (unique) cart; empty when the user has no cart. -/
def userCartLines (db : DB) (uid : Nat) : List CartItem :=
  match userCarts db uid with
  | [c] => cartLines db c.id
  | _ => []

/-- Quantity of the user's first cart line for this product, 0 if absent. -/
def userLineQty (db : DB) (uid sid : Nat) : Nat :=
  (((userCartLines db uid).find? (fun ci => ci.slipper_id == sid)).map
    (fun ci => ci.quantity)).getD 0

/-- find? commutes with a predicate-preserving rewrite of the list. -/
theorem find?_map_of_pred {α : Type} (g : α → α) (p : α → Bool)
    (hp : ∀ x, p (g x) = p x) (l : List α) :
    (l.map g).find? p = (l.find? p).map g := by
  induction l with
  | nil => rfl
  | cons a rest ih =>
      cases hpa : p a with
      | true =>
          rw [List.map_cons, List.find?_cons_of_pos _ (by rw [hp a]; exact hpa),
            List.find?_cons_of_pos _ hpa]
          rfl
      | false =>
          rw [List.map_cons, List.find?_cons_of_neg _ (by simp [hp a, hpa]),
            List.find?_cons_of_neg _ (by simp [hpa]), ih]

/-- A list with pairwise-distinct keys has exactly one entry carrying the
key of a found element. -/
theorem filter_length_one_of_nodup {α : Type} (f : α → Nat) (l : List α) (sid : Nat)
    (x : α) (hn : (l.map f).Nodup) (h : l.find? (fun y => f y == sid) = some x) :
    (l.filter (fun y => f y == sid)).length = 1 := by
  induction l with
  | nil => simp [List.find?] at h
  | cons a rest ih =>
      rw [List.map_cons, List.nodup_cons] at hn
      cases hpa : (f a == sid) with
      | true =>
          rw [List.filter_cons_of_pos (by simpa using hpa)]
          have hrest : rest.filter (fun y => f y == sid) = [] := by
            apply List.filter_eq_nil_iff.mpr
            intro y hy hcon
            apply hn.1
            have hfy : f y = sid := by simpa using hcon
            have hfa : f a = sid := by simpa using hpa
            rw [hfa, ← hfy]
            exact List.mem_map.mpr ⟨y, hy, rfl⟩
          rw [hrest]
          rfl
      | false =>
          rw [List.filter_cons_of_neg (by simp [hpa])]
          rw [List.find?_cons_of_neg _ (by simp [hpa])] at h
          exact ih hn.2 h

/-- **C9.** add_item preserves at-most-one-line-per-product and enforces
stock on the resulting quantity: requiring the user to have at most one
cart, pairwise-distinct products on its lines, distinct line primary keys,
and a fresh next cart id, then — when the product does not exist the call
fails with not-found and the cart lines are unchanged; when it exists, the
call fails with a stock-exceeded error naming the resulting quantity
(prior line quantity plus the request) and the stored availability exactly
when that resulting quantity exceeds the availability, leaving the lines
unchanged; and otherwise succeeds with the line for that product summed to
the prior-plus-requested quantity, exactly one line for that product, all
other lines untouched, and one-line-per-product preserved. -/
theorem c9_add_item_merge_and_stock (db : DB) (uid sid q : Nat)
    (hcarts : userCarts db uid = [] ∨ ∃ c, userCarts db uid = [c])
    (hnodup : ((userCartLines db uid).map (fun ci => ci.slipper_id)).Nodup)
    (hids : (db.cartItems.map (fun ci => ci.id)).Nodup)
    (hfresh : ∀ ci ∈ db.cartItems, ci.cart_id ≠ db.nextCartId) :
    (findStepUp db sid = none →
      (add_item db uid { slipper_id := sid, quantity := q }).1 =
        Except.error CartError.stepUpNotFound ∧
      userCartLines (add_item db uid { slipper_id := sid, quantity := q }).2 uid =
        userCartLines db uid) ∧
    (∀ s, findStepUp db sid = some s →
      (s.quantity < userLineQty db uid sid + q →
        (add_item db uid { slipper_id := sid, quantity := q }).1 =
          Except.error (CartError.stockExceeded (userLineQty db uid sid + q) s.quantity) ∧
        userCartLines (add_item db uid { slipper_id := sid, quantity := q }).2 uid =
          userCartLines db uid) ∧
      (userLineQty db uid sid + q ≤ s.quantity →
        (∃ c, (add_item db uid { slipper_id := sid, quantity := q }).1 = Except.ok c) ∧
        userLineQty (add_item db uid { slipper_id := sid, quantity := q }).2 uid sid =
          userLineQty db uid sid + q ∧
        ((userCartLines (add_item db uid { slipper_id := sid, quantity := q }).2 uid).filter
          (fun ci => ci.slipper_id == sid)).length = 1 ∧
        (userCartLines (add_item db uid { slipper_id := sid, quantity := q }).2 uid).filter
          (fun ci => ci.slipper_id != sid) =
          (userCartLines db uid).filter (fun ci => ci.slipper_id != sid) ∧
        ((userCartLines (add_item db uid { slipper_id := sid, quantity := q }).2 uid).map
          (fun ci => ci.slipper_id)).Nodup)) := by
  set r := add_item db uid { slipper_id := sid, quantity := q } with hr
  rcases hcarts with hA | ⟨c, hB⟩
  · -- the user has no cart: one is created and committed first
    have hlines : userCartLines db uid = [] := by
      unfold userCartLines
      rw [hA]
    have hqty : userLineQty db uid sid = 0 := by
      unfold userLineQty
      rw [hlines]
      rfl
    unfold add_item get_or_create_cart at hr
    rw [hA] at hr
    simp only [] at hr
    have hslip : findStepUp { db with carts := db.carts ++ [{ id := db.nextCartId, user_id := uid }], nextCartId := db.nextCartId + 1 } sid = findStepUp db sid := rfl
    rw [hslip] at hr
    have hALines : ∀ dbx : DB, dbx.carts = db.carts ++ [{ id := db.nextCartId, user_id := uid }] →
        userCartLines dbx uid = cartLines dbx db.nextCartId := by
      intro dbx hx
      unfold userCartLines userCarts
      rw [hx, List.filter_append]
      unfold userCarts at hA
      rw [hA]
      simp
    cases hf : findStepUp db sid with
    | none =>
        rw [hf] at hr
        refine ⟨fun _ => ⟨by rw [hr], ?_⟩, fun s hs => by cases hs⟩
        rw [hr]
        simp only []
        rw [hALines _ rfl, hlines]
        unfold cartLines
        simp only []
        apply List.filter_eq_nil_iff.mpr
        intro ci hci
        simpa using hfresh ci hci
    | some s =>
        rw [hf] at hr
        simp only [] at hr
        have hfind0 : (cartLines { db with carts := db.carts ++ [{ id := db.nextCartId, user_id := uid }], nextCartId := db.nextCartId + 1 } db.nextCartId).find?
            (fun ci => ci.slipper_id == sid) = none := by
          apply List.find?_eq_none.mpr
          intro ci hci
          exact absurd (List.mem_filter.mp hci).2
            (by simpa using hfresh ci (List.mem_filter.mp hci).1)
        rw [hfind0] at hr
        simp only [] at hr
        refine ⟨fun hn => (by cases hn), fun s2 hs2 => ?_⟩
        obtain rfl : s = s2 := Option.some.inj hs2
        rw [hqty, Nat.zero_add]
        by_cases hcmp : q > s.quantity
        · rw [if_pos hcmp] at hr
          refine ⟨fun _ => ⟨by rw [hr], ?_⟩, fun hle => absurd hcmp (by omega)⟩
          rw [hr]
          simp only []
          rw [hALines _ rfl, hlines]
          unfold cartLines
          simp only []
          apply List.filter_eq_nil_iff.mpr
          intro ci hci
          simpa using hfresh ci hci
        · rw [if_neg hcmp] at hr
          refine ⟨fun hlt => absurd hlt (by omega), fun _ => ?_⟩
          have hlines2 : userCartLines r.2 uid =
              [{ id := db.nextCartItemId, cart_id := db.nextCartId,
                 slipper_id := sid, quantity := q }] := by
            rw [hr]
            simp only []
            rw [hALines _ rfl]
            unfold cartLines
            simp only [List.filter_append]
            have h1 : List.filter
                (fun ci => ci.cart_id == db.nextCartId) db.cartItems = [] := by
              apply List.filter_eq_nil_iff.mpr
              intro ci hci
              simpa using hfresh ci hci
            rw [h1]
            simp
          refine ⟨⟨{ id := db.nextCartId, user_id := uid }, by rw [hr]⟩, ?_, ?_, ?_, ?_⟩
          · unfold userLineQty
            rw [hlines2]
            simp [List.find?]
          · rw [hlines2]
            simp
          · rw [hlines2, hlines]
            simp
          · rw [hlines2]
            simp
  · -- the user already has exactly one cart
    have hlines : userCartLines db uid = cartLines db c.id := by
      unfold userCartLines
      rw [hB]
    unfold add_item get_or_create_cart at hr
    rw [hB] at hr
    simp only [] at hr
    cases hf : findStepUp db sid with
    | none =>
        rw [hf] at hr
        exact ⟨fun _ => ⟨by rw [hr], by rw [hr]⟩, fun s hs => by cases hs⟩
    | some s =>
        rw [hf] at hr
        simp only [] at hr
        refine ⟨fun hn => (by cases hn), fun s2 hs2 => ?_⟩
        obtain rfl : s = s2 := Option.some.inj hs2
        cases hfind : (cartLines db c.id).find? (fun ci => ci.slipper_id == sid) with
        | some ci =>
            rw [hfind] at hr
            simp only [] at hr
            have hq : userLineQty db uid sid = ci.quantity := by
              unfold userLineQty
              rw [hlines, hfind]
              rfl
            have hciLines : ci ∈ cartLines db c.id := List.mem_of_find?_eq_some hfind
            have hciMem : ci ∈ db.cartItems := (List.mem_filter.mp hciLines).1
            have hciSid : (ci.slipper_id == sid) = true := by
              have hps := List.find?_some hfind
              simpa using hps
            have hnodup2 : ((cartLines db c.id).map (fun x => x.slipper_id)).Nodup := by
              rw [← hlines]
              exact hnodup
            rw [hq]
            by_cases hcmp : ci.quantity + q > s.quantity
            · rw [if_pos hcmp] at hr
              exact ⟨fun _ => ⟨by rw [hr], by rw [hr]⟩, fun hle => absurd hcmp (by omega)⟩
            · rw [if_neg hcmp] at hr
              refine ⟨fun hlt => absurd hlt (by omega), fun _ => ?_⟩
              have hcartpres : ∀ x : CartItem,
                  (((if x.id == ci.id then { x with quantity := ci.quantity + q } else x) :
                    CartItem).cart_id == c.id) = (x.cart_id == c.id) := by
                intro x
                by_cases hx : (x.id == ci.id) = true
                · rw [if_pos hx]
                · rw [if_neg hx]
              have hsidpres : ∀ x : CartItem,
                  (((if x.id == ci.id then { x with quantity := ci.quantity + q } else x) :
                    CartItem).slipper_id == sid) = (x.slipper_id == sid) := by
                intro x
                by_cases hx : (x.id == ci.id) = true
                · rw [if_pos hx]
                · rw [if_neg hx]
              have hsidpres2 : ∀ x : CartItem,
                  (((if x.id == ci.id then { x with quantity := ci.quantity + q } else x) :
                    CartItem).slipper_id != sid) = (x.slipper_id != sid) := by
                intro x
                by_cases hx : (x.id == ci.id) = true
                · rw [if_pos hx]
                · rw [if_neg hx]
              have hsidval : ∀ x : CartItem,
                  ((if x.id == ci.id then { x with quantity := ci.quantity + q } else x) :
                    CartItem).slipper_id = x.slipper_id := by
                intro x
                by_cases hx : (x.id == ci.id) = true
                · rw [if_pos hx]
                · rw [if_neg hx]
              have hlines2 : userCartLines r.2 uid =
                  (cartLines db c.id).map
                    (fun x => if x.id == ci.id then { x with quantity := ci.quantity + q }
                      else x) := by
                rw [hr]
                unfold userCartLines userCarts
                simp only []
                unfold userCarts at hB
                rw [hB]
                unfold cartLines
                simp only []
                exact filter_map_of_pred _ _ hcartpres db.cartItems
              refine ⟨⟨c, by rw [hr]⟩, ?_, ?_, ?_, ?_⟩
              · unfold userLineQty
                rw [hlines2, find?_map_of_pred _ _ hsidpres, hfind]
                simp
              · rw [hlines2, filter_map_of_pred _ _ hsidpres, List.length_map]
                exact filter_length_one_of_nodup (fun x => x.slipper_id)
                  (cartLines db c.id) sid ci hnodup2 hfind
              · rw [hlines2, filter_map_of_pred _ _ hsidpres2, hlines]
                apply List.map_congr_left ?_ |>.trans (List.map_id _)
                intro y hy
                have hymem : y ∈ db.cartItems :=
                  (List.mem_filter.mp (List.mem_of_mem_filter hy)).1
                have hysid : (y.slipper_id != sid) = true := (List.mem_filter.mp hy).2
                by_cases hyid : (y.id == ci.id) = true
                · exfalso
                  have hyci : y = ci := List.inj_on_of_nodup_map hids hymem hciMem
                    (by simpa using hyid)
                  subst hyci
                  simp [bne, hciSid] at hysid
                · rw [if_neg hyid]
                  rfl
              · rw [hlines2, List.map_map]
                rw [show ((fun x : CartItem => x.slipper_id) ∘ fun x : CartItem =>
                    if x.id == ci.id then { x with quantity := ci.quantity + q } else x) =
                    (fun x : CartItem => ((if x.id == ci.id then
                      { x with quantity := ci.quantity + q } else x) : CartItem).slipper_id)
                  from rfl]
                rw [List.map_congr_left (fun x _ => hsidval x)]
                exact hnodup2
        | none =>
            rw [hfind] at hr
            simp only [] at hr
            have hq : userLineQty db uid sid = 0 := by
              unfold userLineQty
              rw [hlines, hfind]
              rfl
            rw [hq, Nat.zero_add]
            by_cases hcmp : q > s.quantity
            · rw [if_pos hcmp] at hr
              exact ⟨fun _ => ⟨by rw [hr], by rw [hr]⟩, fun hle => absurd hcmp (by omega)⟩
            · rw [if_neg hcmp] at hr
              refine ⟨fun hlt => absurd hlt (by omega), fun _ => ?_⟩
              have hnone : ∀ y ∈ cartLines db c.id, ¬((fun ci => ci.slipper_id == sid) y = true) :=
                List.find?_eq_none.mp hfind
              have hlines2 : userCartLines r.2 uid =
                  cartLines db c.id ++
                    [{ id := db.nextCartItemId, cart_id := c.id, slipper_id := sid,
                       quantity := q }] := by
                rw [hr]
                unfold userCartLines userCarts
                simp only []
                unfold userCarts at hB
                rw [hB]
                unfold cartLines
                simp only [List.filter_append]
                simp
              refine ⟨⟨c, by rw [hr]⟩, ?_, ?_, ?_, ?_⟩
              · unfold userLineQty
                rw [hlines2, List.find?_append, hfind]
                simp [List.find?]
              · rw [hlines2, List.filter_append]
                rw [List.filter_eq_nil_iff.mpr hnone]
                simp
              · rw [hlines2, List.filter_append, hlines]
                simp
              · rw [hlines2, List.map_append]
                simp only [List.map_cons, List.map_nil]
                rw [List.nodup_append]
                refine ⟨by rw [← hlines]; exact hnodup, by simp, ?_⟩
                intro a ha
                simp only [List.mem_map] at ha
                obtain ⟨y, hy, rfl⟩ := ha
                have := hnone y hy
                simp only [List.mem_singleton]
                intro hcon
                exact this (by simp [hcon])

/-- Store for the C9 witness: product 1 with stock 5, user 7's cart holding
two units of it. -/
def dbW9 : DB :=
  { slippers := [{ id := 1, quantity := 5, price := 2 }], orders := [], orderItems := [],
    carts := [{ id := 1, user_id := 7 }],
    cartItems := [{ id := 1, cart_id := 1, slipper_id := 1, quantity := 2 }],
    payments := [], nextOrderId := 1, nextCartId := 2, nextCartItemId := 2 }

/-- Witness for C9: adding two more units merges into the single line
(2 + 2 = 4 ≤ 5), and the conclusions of the claim theorem hold at this
concrete input. -/
theorem c9_witness :
    (∃ c, (add_item dbW9 7 { slipper_id := 1, quantity := 2 }).1 = Except.ok c) ∧
    userLineQty (add_item dbW9 7 { slipper_id := 1, quantity := 2 }).2 7 1 =
      userLineQty dbW9 7 1 + 2 ∧
    ((userCartLines (add_item dbW9 7 { slipper_id := 1, quantity := 2 }).2 7).filter
      (fun ci => ci.slipper_id == 1)).length = 1 ∧
    (userCartLines (add_item dbW9 7 { slipper_id := 1, quantity := 2 }).2 7).filter
      (fun ci => ci.slipper_id != 1) =
      (userCartLines dbW9 7).filter (fun ci => ci.slipper_id != 1) ∧
    ((userCartLines (add_item dbW9 7 { slipper_id := 1, quantity := 2 }).2 7).map
      (fun ci => ci.slipper_id)).Nodup :=
  ((c9_add_item_merge_and_stock dbW9 7 1 2
      (Or.inr ⟨{ id := 1, user_id := 7 }, by decide⟩) (by decide) (by decide)
      (by decide)).2 { id := 1, quantity := 5, price := 2 } (by decide)).2 (by decide)

/-- Fully configured settings used to evaluate the gateway clients. -/
def stW8 : OctoSettings :=
  { OCTO_SHOP_ID := some "9001"
    OCTO_SECRET := some "sek"
    OCTO_RETURN_URL := some "https://shop/return"
    OCTO_NOTIFY_URL := some "https://shop/notify"
    OCTO_USD_UZS_RATE := some 13000 }

/-- **C8.** The code violates the claim: the gateway clients can raise past
their boundary. Only the POST and resp.json() sit inside the try block, so
a provider response that is valid JSON but not an object (here the number
3) raises AttributeError at data.get, and an error response whose truthy
errMessage is not a string (here 42) raises a pydantic ValidationError
while the response model is constructed — in both clients, with fully
valid arguments and settings; neither is translated into a success = false
result. By contrast a transport exception (the httpError outcome) is
translated gracefully, as the claim describes. -/
theorem c8_gateway_raises_past_boundary :
    createPayment stW8 50000 "Order #1" "tx-1"
      (HttpOutcome.response (JsonVal.jnum 3)) = none ∧
    createPayment stW8 50000 "Order #1" "tx-1"
      (HttpOutcome.response (JsonVal.jobj
        [("error", JsonVal.jnum 1), ("errMessage", JsonVal.jnum 42)])) = none ∧
    refundPayment stW8 "uuid-12345678" 50000
      (HttpOutcome.response (JsonVal.jnum 3)) = none ∧
    refundPayment stW8 "uuid-12345678" 50000
      (HttpOutcome.response (JsonVal.jobj
        [("error", JsonVal.jnum 1), ("errMessage", JsonVal.jnum 42)])) = none ∧
    createPayment stW8 50000 "Order #1" "tx-1" (HttpOutcome.httpError "timeout") =
      some (prepareFail ("HTTP error: " ++ "timeout") none []) ∧
    refundPayment stW8 "uuid-12345678" 50000 (HttpOutcome.httpError "timeout") =
      some (refundFail ("HTTP error: " ++ "timeout") []) := by
  refine ⟨rfl, rfl, rfl, rfl, rfl, rfl⟩

/-! ### C3: stock-invariant accounting

Quantity bookkeeping used to relate the persisted rows of an order back to
the validation reads of create_order, on both the fresh and the merge
path. -/

/-- Total clamped quantity requested for a product across the incoming
lines of a creation request. -/
def linesQty (items : List OrderItemCreate) (sid : Nat) : Nat :=
  ((items.filter (fun it => it.slipper_id == sid)).map (fun it => clampQty it.quantity)).sum

/-- Total stored quantity for a product across a list of item rows. -/
def sumQty (l : List OrderItem) (sid : Nat) : Nat :=
  ((l.filter (fun it => it.slipper_id == sid)).map (fun it => it.quantity)).sum

/-- Number of incoming lines naming a product. -/
def countOcc (items : List OrderItemCreate) (sid : Nat) : Nat :=
  (items.filter (fun it => it.slipper_id == sid)).length

theorem reqQty_cons (p : Nat × Nat) (rest : List (Nat × Nat)) (sid : Nat) :
    reqQty (p :: rest) sid = if p.1 = sid then p.2 else reqQty rest sid := by
  by_cases h : p.1 = sid
  · simp [reqQty, List.find?, h]
  · have h' : (p.1 == sid) = false := by simp [h]
    simp [reqQty, List.find?, h', h]

theorem qtyInAssoc_cons (oi : OrderItem) (rest : List OrderItem) (sid : Nat) :
    qtyInAssoc (oi :: rest) sid =
      if oi.slipper_id = sid then oi.quantity else qtyInAssoc rest sid := by
  by_cases h : oi.slipper_id = sid
  · simp [qtyInAssoc, List.find?, h]
  · have h' : (oi.slipper_id == sid) = false := by simp [h]
    simp [qtyInAssoc, List.find?, h', h]

theorem sumQty_cons (oi : OrderItem) (rest : List OrderItem) (sid : Nat) :
    sumQty (oi :: rest) sid =
      (if oi.slipper_id = sid then oi.quantity else 0) + sumQty rest sid := by
  by_cases h : oi.slipper_id = sid
  · have h' : (oi.slipper_id == sid) = true := by simp [h]
    simp [sumQty, List.filter_cons, h', h]
  · have h' : (oi.slipper_id == sid) = false := by simp [h]
    simp [sumQty, List.filter_cons, h', h]

/-- Adding to the aggregation dict adds to exactly the product's entry. -/
theorem reqQty_requestedAdd (l : List (Nat × Nat)) (sid0 q0 sid : Nat) :
    reqQty (requestedAdd l sid0 q0) sid =
      if sid = sid0 then reqQty l sid + q0 else reqQty l sid := by
  induction l with
  | nil =>
      rw [show requestedAdd [] sid0 q0 = [(sid0, q0)] from rfl, reqQty_cons]
      by_cases h : sid = sid0
      · simp [h, reqQty, List.find?]
      · have h2 : ¬ ((sid0, q0).1 = sid) := fun c => h c.symm
        simp [h, h2, reqQty, List.find?]
  | cons p rest ih =>
      by_cases hp : p.1 = sid0
      · have hp' : (p.1 == sid0) = true := by simp [hp]
        rw [show requestedAdd (p :: rest) sid0 q0 = (p.1, p.2 + q0) :: rest from by
          simp [requestedAdd, hp']]
        rw [reqQty_cons, reqQty_cons]
        by_cases hs : sid = sid0
        · have hps : p.1 = sid := hp.trans hs.symm
          simp [hps, hs]
        · have hps : ¬ p.1 = sid := fun c => hs (by rw [← c, hp])
          simp [hps, hs]
      · have hp' : (p.1 == sid0) = false := by simp [hp]
        rw [show requestedAdd (p :: rest) sid0 q0 = p :: requestedAdd rest sid0 q0 from by
          simp [requestedAdd, hp']]
        rw [reqQty_cons, reqQty_cons, ih]
        by_cases hps : p.1 = sid
        · have hs : ¬ sid = sid0 := fun c => hp (hps.trans c)
          simp [hps, hs]
        · simp [hps]

/-- The aggregation fold adds, per product, exactly the clamped sum of the
incoming lines. -/
theorem reqQty_foldl (items : List OrderItemCreate) (sid : Nat) :
    ∀ acc : List (Nat × Nat),
      reqQty (items.foldl (fun a it => requestedAdd a it.slipper_id (clampQty it.quantity)) acc) sid
        = reqQty acc sid + linesQty items sid := by
  induction items with
  | nil => intro acc; simp [linesQty]
  | cons it rest ih =>
      intro acc
      rw [List.foldl_cons, ih, reqQty_requestedAdd]
      by_cases h : sid = it.slipper_id
      · have h' : (it.slipper_id == sid) = true := by simp [h.symm]
        simp only [linesQty, List.filter_cons, h', if_pos, List.map_cons, List.sum_cons]
        rw [if_pos h]
        have : ((rest.filter (fun x => x.slipper_id == sid)).map
            (fun x => clampQty x.quantity)).sum = linesQty rest sid := rfl
        omega
      · have h' : (it.slipper_id == sid) = false := by
          simp only [beq_eq_false_iff_ne, ne_eq]
          exact fun c => h c.symm
        simp only [linesQty, List.filter_cons, h', Bool.false_eq_true, if_false]
        rw [if_neg h]

/-- The aggregation dict of the fresh path records, per product, the clamped
sum of the incoming lines. -/
theorem reqQty_aggregate (items : List OrderItemCreate) (sid : Nat) :
    reqQty (aggregateRequested items) sid = linesQty items sid := by
  rw [aggregateRequested, reqQty_foldl]
  simp [reqQty, List.find?]

/-- A passing stock validation bounds every aggregated entry by the
available stock. -/
theorem validateStock_bound (db : DB) (l : List (Nat × Nat))
    (h : validateStock db l = none) :
    ∀ p ∈ l, p.2 ≤ availQty db p.1 := by
  induction l with
  | nil => intro p hp; cases hp
  | cons q rest ih =>
      obtain ⟨sid, qty⟩ := q
      intro p hp
      rw [validateStock] at h
      cases hf : findStepUp db sid with
      | none => rw [hf] at h; simp at h
      | some s =>
          rw [hf] at h
          simp only [] at h
          by_cases hq : qty > s.quantity
          · rw [if_pos hq] at h; cases h
          · rw [if_neg hq] at h
            cases hp with
            | head =>
                show qty ≤ availQty db sid
                rw [availQty, findStepUp] at *
                rw [hf]
                simpa using Nat.le_of_not_lt hq
            | tail _ hmem => exact ih h p hmem

/-- A passing stock validation bounds the aggregated quantity of every
product (present or absent) by the available stock. -/
theorem reqQty_le_avail (db : DB) (agg : List (Nat × Nat)) (sid : Nat)
    (h : validateStock db agg = none) :
    reqQty agg sid ≤ availQty db sid := by
  rw [reqQty]
  cases hf : agg.find? (fun p => p.1 == sid) with
  | none => simp
  | some pr =>
      have hmem := List.mem_of_find?_eq_some hf
      have hpred := List.find?_some hf
      have h1 : pr.1 = sid := by simpa using hpred
      have hb := validateStock_bound db agg h pr hmem
      rw [h1] at hb
      simpa using hb

/-- A product's key is absent from an item list exactly when no row carries
it. -/
theorem assoc_absent_iff (l : List OrderItem) (sid : Nat) :
    l.find? (fun oi => oi.slipper_id == sid) = none ↔
      sid ∉ l.map (fun oi => oi.slipper_id) := by
  rw [List.find?_eq_none]
  constructor
  · intro h hm
    obtain ⟨oi, hoi, hsl⟩ := List.mem_map.mp hm
    have := h oi hoi
    simp [hsl] at this
  · intro h oi hoi hc
    have hsl : oi.slipper_id = sid := by simpa using hc
    exact h (hsl ▸ List.mem_map_of_mem _ hoi)

/-- An absent product contributes no stored quantity. -/
theorem sumQty_of_absent (l : List OrderItem) (sid : Nat)
    (h : l.find? (fun oi => oi.slipper_id == sid) = none) :
    sumQty l sid = 0 := by
  have hfil : l.filter (fun oi => oi.slipper_id == sid) = [] := by
    rw [List.filter_eq_nil_iff]
    intro it hit hc
    rw [List.find?_eq_none] at h
    exact (h it hit) hc
  simp [sumQty, hfil]

/-- On a one-row-per-product list the stored sum for a product is the
quantity of its (unique) row. -/
theorem sumQty_eq_qtyInAssoc (l : List OrderItem) (sid : Nat)
    (h : (l.map (fun oi => oi.slipper_id)).Nodup) :
    sumQty l sid = qtyInAssoc l sid := by
  induction l with
  | nil => simp [sumQty, qtyInAssoc, List.find?]
  | cons oi rest ih =>
      rw [sumQty_cons, qtyInAssoc_cons]
      simp only [List.map_cons, List.nodup_cons] at h
      by_cases hos : oi.slipper_id = sid
      · rw [if_pos hos, if_pos hos]
        have hrf : rest.filter (fun it => it.slipper_id == sid) = [] := by
          rw [List.filter_eq_nil_iff]
          intro it hit hc
          have hsl : it.slipper_id = sid := by simpa using hc
          have hm : it.slipper_id ∈ rest.map (fun x => x.slipper_id) :=
            List.mem_map_of_mem _ hit
          rw [hsl, ← hos] at hm
          exact h.1 hm
        have hz : sumQty rest sid = 0 := by simp [sumQty, hrf]
        omega
      · rw [if_neg hos, if_neg hos, ih h.2]
        simp

/-- Consolidation adds the incoming quantity to exactly the product's
entry. -/
theorem qtyInAssoc_consolidate (acc : List OrderItem) (sid0 q0 : Nat) (up : ℚ)
    (notes : Option String) (sid : Nat) :
    qtyInAssoc (consolidate acc sid0 q0 up notes) sid =
      if sid = sid0 then qtyInAssoc acc sid + q0 else qtyInAssoc acc sid := by
  induction acc with
  | nil =>
      simp only [consolidate]
      rw [qtyInAssoc_cons]
      by_cases h : sid = sid0
      · simp [h, qtyInAssoc, List.find?]
      · have h2 : ¬ (sid0 = sid) := fun c => h c.symm
        simp [h, h2, qtyInAssoc, List.find?]
  | cons oi rest ih =>
      by_cases hoi : oi.slipper_id = sid0
      · have hoi' : (oi.slipper_id == sid0) = true := by simp [hoi]
        simp only [consolidate, hoi', if_pos]
        rw [qtyInAssoc_cons, qtyInAssoc_cons]
        by_cases hs : sid = sid0
        · have hos : oi.slipper_id = sid := hoi.trans hs.symm
          simp [hos, hs]
        · have hos : ¬ oi.slipper_id = sid := fun c => hs (by rw [← c, hoi])
          simp [hos, hs]
      · have hoi' : (oi.slipper_id == sid0) = false := by simp [hoi]
        simp only [consolidate, hoi', Bool.false_eq_true, if_false]
        rw [qtyInAssoc_cons, qtyInAssoc_cons, ih]
        by_cases hos : oi.slipper_id = sid
        · have hs : ¬ sid = sid0 := fun c => hoi (hos.trans c)
          simp [hos, hs]
        · simp [hos]

/-- Consolidation keeps the product keys, appending the new product's key
only when it was absent. -/
theorem consolidate_keys (acc : List OrderItem) (sid0 q0 : Nat) (up : ℚ)
    (notes : Option String) :
    (consolidate acc sid0 q0 up notes).map (fun oi => oi.slipper_id) =
      if sid0 ∈ acc.map (fun oi => oi.slipper_id) then
        acc.map (fun oi => oi.slipper_id)
      else acc.map (fun oi => oi.slipper_id) ++ [sid0] := by
  induction acc with
  | nil => simp [consolidate]
  | cons oi rest ih =>
      by_cases hoi : oi.slipper_id = sid0
      · have hoi' : (oi.slipper_id == sid0) = true := by simp [hoi]
        simp only [consolidate, hoi', if_pos, List.map_cons]
        rw [if_pos (by simp [hoi] : sid0 ∈ oi.slipper_id :: rest.map (fun x => x.slipper_id))]
      · have hoi' : (oi.slipper_id == sid0) = false := by simp [hoi]
        simp only [consolidate, hoi', Bool.false_eq_true, if_false]
        simp only [List.map_cons, ih]
        by_cases hc : sid0 ∈ rest.map (fun x => x.slipper_id)
        · rw [if_pos hc, if_pos (List.mem_cons_of_mem _ hc)]
        · rw [if_neg hc, if_neg (by
            intro hm
            cases hm with
            | head => exact hoi rfl
            | tail _ hm2 => exact hc hm2)]
          rfl

/-- Consolidation preserves one-row-per-product. -/
theorem consolidate_keys_nodup (acc : List OrderItem) (sid0 q0 : Nat) (up : ℚ)
    (notes : Option String)
    (h : (acc.map (fun oi => oi.slipper_id)).Nodup) :
    ((consolidate acc sid0 q0 up notes).map (fun oi => oi.slipper_id)).Nodup := by
  rw [consolidate_keys]
  by_cases hc : sid0 ∈ acc.map (fun oi => oi.slipper_id)
  · rw [if_pos hc]; exact h
  · rw [if_neg hc]
    rw [List.nodup_append]
    refine ⟨h, List.nodup_singleton _, ?_⟩
    intro a ha hb
    have hab : a = sid0 := by simpa using hb
    exact hc (hab ▸ ha)

/-- The build loop of the fresh path stores, per product, the starting
quantity plus the clamped sum of the incoming lines. -/
theorem buildItems_qty (db : DB) (items : List OrderItemCreate) (sid : Nat)
    (totF : ℚ) (accF : List OrderItem) :
    ∀ (tot : ℚ) (acc : List OrderItem),
      buildItems db items tot acc = Except.ok (totF, accF) →
      qtyInAssoc accF sid = qtyInAssoc acc sid + linesQty items sid := by
  induction items with
  | nil =>
      intro tot acc h
      simp only [buildItems, Except.ok.injEq, Prod.mk.injEq] at h
      obtain ⟨h1, h2⟩ := h
      subst h2
      simp [linesQty]
  | cons it rest ih =>
      intro tot acc h
      simp only [buildItems] at h
      cases hf : findStepUp db it.slipper_id with
      | none => rw [hf] at h; simp at h
      | some s =>
          rw [hf] at h
          simp only [] at h
          have hstep := ih _ _ h
          rw [hstep, qtyInAssoc_consolidate]
          by_cases hs : sid = it.slipper_id
          · have h' : (it.slipper_id == sid) = true := by simp [hs.symm]
            simp only [linesQty, List.filter_cons, h', if_pos, List.map_cons, List.sum_cons]
            rw [if_pos hs]
            have : ((rest.filter (fun x => x.slipper_id == sid)).map
                (fun x => clampQty x.quantity)).sum = linesQty rest sid := rfl
            omega
          · have h' : (it.slipper_id == sid) = false := by
              simp only [beq_eq_false_iff_ne, ne_eq]
              exact fun c => hs c.symm
            simp only [linesQty, List.filter_cons, h', Bool.false_eq_true, if_false]
            rw [if_neg hs]

/-- The build loop of the fresh path preserves one-row-per-product. -/
theorem buildItems_keys_nodup (db : DB) (items : List OrderItemCreate)
    (totF : ℚ) (accF : List OrderItem) :
    ∀ (tot : ℚ) (acc : List OrderItem),
      buildItems db items tot acc = Except.ok (totF, accF) →
      (acc.map (fun oi => oi.slipper_id)).Nodup →
      (accF.map (fun oi => oi.slipper_id)).Nodup := by
  induction items with
  | nil =>
      intro tot acc h hn
      simp only [buildItems, Except.ok.injEq, Prod.mk.injEq] at h
      obtain ⟨h1, h2⟩ := h
      subst h2
      exact hn
  | cons it rest ih =>
      intro tot acc h hn
      simp only [buildItems] at h
      cases hf : findStepUp db it.slipper_id with
      | none => rw [hf] at h; simp at h
      | some s =>
          rw [hf] at h
          simp only [] at h
          exact ih _ _ h (consolidate_keys_nodup _ _ _ _ _ hn)

/-- Mapping an if-guarded rewrite over rows on which the guard is false is
the identity. -/
theorem map_if_eq_id {α : Type} (l : List α) (p : α → Bool) (f : α → α)
    (hp : ∀ a ∈ l, p a = false) :
    l.map (fun a => if p a then f a else a) = l := by
  induction l with
  | nil => rfl
  | cons x rest ih =>
      rw [List.map_cons, if_neg (by simp [hp x (List.mem_cons_self x rest)]),
        ih (fun a ha => hp a (List.mem_cons_of_mem x ha))]

/-- On a store holding no row of the new order yet, the item upsert of the
fresh path plainly appends the batch, tagged with the new order id. -/
theorem upsertBatch_fresh (db : DB) (nid : Nat) (batch : List OrderItem)
    (hfresh : ∀ it ∈ db.orderItems, it.order_id ≠ nid) :
    upsertBatch db nid batch =
      db.orderItems ++ batch.map (fun b => { b with order_id := nid }) := by
  rw [upsertBatch]
  have h1 : db.orderItems.filter (fun it => it.order_id == nid) = [] := by
    rw [List.filter_eq_nil_iff]
    intro it hit hc
    exact hfresh it hit (by simpa using hc)
  have hfresh' : ∀ a ∈ db.orderItems, (a.order_id == nid) = false := by
    intro a ha
    simp only [beq_eq_false_iff_ne, ne_eq]
    exact hfresh a ha
  rw [map_if_eq_id db.orderItems (fun dbit => dbit.order_id == nid) _ hfresh']
  simp only [h1, List.map_nil]
  simp

/-- Quantities of the retagged batch, filtered back by the new order id,
are exactly the batch's quantities. -/
theorem sumQty_retag (batch : List OrderItem) (nid sid : Nat) :
    (((batch.map (fun b => { b with order_id := nid })).filter
      (fun it => it.order_id == nid && it.slipper_id == sid)).map
        (fun it => it.quantity)).sum = sumQty batch sid := by
  induction batch with
  | nil => simp [sumQty]
  | cons b rest ih =>
      simp only [List.map_cons, List.filter_cons]
      rw [sumQty_cons]
      by_cases hb : b.slipper_id = sid
      · have hcond : ((({ b with order_id := nid } : OrderItem).order_id == nid) &&
            (({ b with order_id := nid } : OrderItem).slipper_id == sid)) = true := by
          simp [hb]
        rw [if_pos hcond, List.map_cons, List.sum_cons, ih, if_pos hb]
      · rw [if_neg (by simp [hb]), ih, if_neg hb]
        omega

/-- Pre-existing rows never carry a fresh order id. -/
theorem db_part_fresh (db : DB) (nid sid : Nat)
    (hfresh : ∀ it ∈ db.orderItems, it.order_id ≠ nid) :
    db.orderItems.filter (fun it => it.order_id == nid && it.slipper_id == sid) = [] := by
  rw [List.filter_eq_nil_iff]
  intro it hit hc
  have h1 : (it.order_id == nid) = true := ((Bool.and_eq_true _ _).mp hc).1
  exact hfresh it hit (by simpa using h1)

/-- The per-product quantity persisted by the fresh-path upsert is bounded
by the available stock whenever the batch's is. -/
theorem sumQty_upsert_fresh_le (db : DB) (batch : List OrderItem) (sid : Nat)
    (hfresh : ∀ it ∈ db.orderItems, it.order_id ≠ db.nextOrderId)
    (hq : sumQty batch sid ≤ availQty db sid) :
    (((upsertBatch db db.nextOrderId batch).filter
      (fun it => it.order_id == db.nextOrderId && it.slipper_id == sid)).map
        (fun it => it.quantity)).sum ≤ availQty db sid := by
  rw [upsertBatch_fresh db db.nextOrderId batch hfresh]
  rw [List.filter_append, List.map_append, List.sum_append]
  rw [db_part_fresh db db.nextOrderId sid hfresh]
  rw [sumQty_retag]
  simpa using hq

/-- Fresh-path stock invariant: on a store holding no row of the fresh
order id, a successful fresh-path creation persists, for every product, at
most the stock available at validation time. -/
theorem createFresh_stock (db : DB) (ord : OrderCreate) (idk : Option String)
    (now : Nat) (o : Order) (db2 : DB)
    (hfresh : ∀ it ∈ db.orderItems, it.order_id ≠ db.nextOrderId)
    (h : createFresh db ord idk now = (Except.ok o, db2)) (sid : Nat) :
    orderQty db2 o.id sid ≤ availQty db sid := by
  unfold createFresh at h
  cases hv : validateStock db (aggregateRequested ord.items) with
  | some e => rw [hv] at h; simp at h
  | none =>
      rw [hv] at h
      simp only [] at h
      cases hb : buildItems db ord.items 0 [] with
      | error e => rw [hb] at h; simp at h
      | ok r =>
          obtain ⟨ta, its⟩ := r
          rw [hb] at h
          simp only [] at h
          have hnd : (its.map (fun oi => oi.slipper_id)).Nodup :=
            buildItems_keys_nodup db ord.items ta its 0 [] hb (by simp)
          have hqa := buildItems_qty db ord.items sid ta its 0 [] hb
          have hq : sumQty its sid ≤ availQty db sid := by
            rw [sumQty_eq_qtyInAssoc its sid hnd, hqa]
            have h0 : qtyInAssoc ([] : List OrderItem) sid = 0 := rfl
            rw [h0, Nat.zero_add, ← reqQty_aggregate]
            exact reqQty_le_avail db _ sid hv
          have hb2 := sumQty_upsert_fresh_le db its sid hfresh hq
          split at h
          · next habs =>
              simp only [Prod.mk.injEq, Except.ok.injEq] at h
              obtain ⟨ho, hdb⟩ := h
              subst ho
              subst hdb
              exact hb2
          · next habs =>
              simp only [Prod.mk.injEq, Except.ok.injEq] at h
              obtain ⟨ho, hdb⟩ := h
              subst ho
              subst hdb
              exact hb2

theorem countOcc_cons (it : OrderItemCreate) (rest : List OrderItemCreate) (sid : Nat) :
    countOcc (it :: rest) sid =
      (if it.slipper_id = sid then 1 else 0) + countOcc rest sid := by
  by_cases h : it.slipper_id = sid
  · have h' : (it.slipper_id == sid) = true := by simp [h]
    simp only [countOcc, List.filter_cons, h', if_pos, List.length_cons]
    rw [if_pos h]
    omega
  · have h' : (it.slipper_id == sid) = false := by simp [h]
    simp only [countOcc, List.filter_cons, h', Bool.false_eq_true, if_false]
    rw [if_neg h]
    omega

theorem sumQty_append (l1 l2 : List OrderItem) (sid : Nat) :
    sumQty (l1 ++ l2) sid = sumQty l1 sid + sumQty l2 sid := by
  simp [sumQty, List.filter_append]

/-- The in-place merge keeps the product keys of the loaded items. -/
theorem updateAssocItem_keys (acc : List OrderItem) (sid0 inc : Nat) (up : ℚ) :
    (updateAssocItem acc sid0 inc up).map (fun oi => oi.slipper_id) =
      acc.map (fun oi => oi.slipper_id) := by
  induction acc with
  | nil => rfl
  | cons oi rest ih =>
      by_cases h : oi.slipper_id = sid0
      · have h' : (oi.slipper_id == sid0) = true := by simp [h]
        simp [updateAssocItem, h', ih]
      · have h' : (oi.slipper_id == sid0) = false := by simp [h]
        simp [updateAssocItem, h', ih]

/-- The in-place merge adds the increment to the merged product's entry. -/
theorem qtyInAssoc_update_self (acc : List OrderItem) (sid0 inc : Nat) (up : ℚ)
    (hp : ¬ acc.find? (fun oi => oi.slipper_id == sid0) = none) :
    qtyInAssoc (updateAssocItem acc sid0 inc up) sid0 = qtyInAssoc acc sid0 + inc := by
  induction acc with
  | nil => exact absurd rfl hp
  | cons oi rest ih =>
      by_cases h : oi.slipper_id = sid0
      · have h' : (oi.slipper_id == sid0) = true := by simp [h]
        simp only [updateAssocItem, h', if_pos]
        rw [qtyInAssoc_cons, qtyInAssoc_cons, if_pos h, if_pos h]
      · have h' : (oi.slipper_id == sid0) = false := by simp [h]
        have hp2 : ¬ rest.find? (fun oi => oi.slipper_id == sid0) = none := by
          intro hn
          apply hp
          rw [List.find?_cons_of_neg _ (by simp [h'])]
          exact hn
        simp only [updateAssocItem, h', Bool.false_eq_true, if_false]
        rw [qtyInAssoc_cons, qtyInAssoc_cons, if_neg h, if_neg h, ih hp2]

/-- The in-place merge leaves every other product's entry untouched. -/
theorem qtyInAssoc_update_other (acc : List OrderItem) (sid0 inc : Nat) (up : ℚ)
    (sid : Nat) (hs : ¬ sid = sid0) :
    qtyInAssoc (updateAssocItem acc sid0 inc up) sid = qtyInAssoc acc sid := by
  induction acc with
  | nil => rfl
  | cons oi rest ih =>
      by_cases h : oi.slipper_id = sid0
      · have h' : (oi.slipper_id == sid0) = true := by simp [h]
        have hos : ¬ oi.slipper_id = sid := fun c => hs (by rw [← c, h])
        simp only [updateAssocItem, h', if_pos]
        rw [qtyInAssoc_cons, qtyInAssoc_cons, if_neg hos, if_neg hos]
      · have h' : (oi.slipper_id == sid0) = false := by simp [h]
        simp only [updateAssocItem, h', Bool.false_eq_true, if_false]
        rw [qtyInAssoc_cons, qtyInAssoc_cons, ih]

/-- The in-place merge keeps the rows' owning order. -/
theorem updateAssocItem_order_ids (acc : List OrderItem) (sid0 inc : Nat) (up : ℚ)
    (tid : Nat) (h : ∀ it ∈ acc, it.order_id = tid) :
    ∀ it ∈ updateAssocItem acc sid0 inc up, it.order_id = tid := by
  induction acc with
  | nil => intro it hit; cases hit
  | cons oi rest ih =>
      intro it hit
      by_cases hs : oi.slipper_id = sid0
      · have h' : (oi.slipper_id == sid0) = true := by simp [hs]
        simp only [updateAssocItem, h', if_pos] at hit
        cases hit with
        | head => exact h oi (List.mem_cons_self oi rest)
        | tail _ hm => exact h it (List.mem_cons_of_mem oi hm)
      · have h' : (oi.slipper_id == sid0) = false := by simp [hs]
        simp only [updateAssocItem, h', Bool.false_eq_true, if_false] at hit
        cases hit with
        | head => exact h oi (List.mem_cons_self oi rest)
        | tail _ hm =>
            exact ih (fun x hx => h x (List.mem_cons_of_mem oi hx)) it hm

/-- Every row surviving the merge loop belongs to the target order. -/
theorem mergeLoop_order_ids (db : DB) (tid : Nat) (items : List OrderItemCreate)
    (accF newF : List OrderItem) (totF : ℚ) :
    ∀ (acc newItems : List OrderItem) (tot : ℚ),
      mergeLoop db tid items acc newItems tot = Except.ok (accF, newF, totF) →
      (∀ it ∈ acc, it.order_id = tid) →
      (∀ it ∈ newItems, it.order_id = tid) →
      (∀ it ∈ accF, it.order_id = tid) ∧ (∀ it ∈ newF, it.order_id = tid) := by
  induction items with
  | nil =>
      intro acc newItems tot h ha hn
      simp only [mergeLoop, Except.ok.injEq, Prod.mk.injEq] at h
      obtain ⟨h1, h2, h3⟩ := h
      subst h1
      subst h2
      exact ⟨ha, hn⟩
  | cons it0 rest ih =>
      intro acc newItems tot h ha hn
      simp only [mergeLoop] at h
      cases hf : findStepUp db it0.slipper_id with
      | none => rw [hf] at h; simp at h
      | some s =>
          rw [hf] at h
          simp only [] at h
          split at h
          · simp at h
          · split at h
            · exact ih _ _ _ h (updateAssocItem_order_ids acc _ _ _ tid ha) hn
            · refine ih _ _ _ h ha ?_
              intro x hx
              rw [List.mem_append] at hx
              cases hx with
              | inl hx1 => exact hn x hx1
              | inr hx2 =>
                  rw [List.mem_singleton] at hx2
                  subst hx2
                  rfl

/-- Per-product accounting of the merge loop. K: the loaded rows' keys are
unchanged. (ii) a product with no incoming line keeps its loaded quantity.
(iii) a product with an incoming line and a loaded row ends bounded by the
stock read at validation. (iv) a product that has a loaded row, or no
incoming line, gets nothing appended. (v) a product with no loaded row and
at most one incoming line gets at most the read stock appended. -/
theorem mergeLoop_bounds (db : DB) (tid : Nat) (items : List OrderItemCreate)
    (accF newF : List OrderItem) (totF : ℚ) (sid : Nat) :
    ∀ (acc newItems : List OrderItem) (tot : ℚ),
      mergeLoop db tid items acc newItems tot = Except.ok (accF, newF, totF) →
      accF.map (fun oi => oi.slipper_id) = acc.map (fun oi => oi.slipper_id) ∧
      (countOcc items sid = 0 → qtyInAssoc accF sid = qtyInAssoc acc sid) ∧
      (0 < countOcc items sid →
        ¬ acc.find? (fun oi => oi.slipper_id == sid) = none →
        qtyInAssoc accF sid ≤ availQty db sid) ∧
      ((¬ acc.find? (fun oi => oi.slipper_id == sid) = none ∨ countOcc items sid = 0) →
        sumQty newF sid = sumQty newItems sid) ∧
      (acc.find? (fun oi => oi.slipper_id == sid) = none →
        countOcc items sid ≤ 1 →
        sumQty newF sid ≤ sumQty newItems sid + availQty db sid) := by
  induction items with
  | nil =>
      intro acc newItems tot h
      simp only [mergeLoop, Except.ok.injEq, Prod.mk.injEq] at h
      obtain ⟨h1, h2, h3⟩ := h
      subst h1
      subst h2
      refine ⟨rfl, fun _ => rfl, ?_, fun _ => rfl, ?_⟩
      · intro hc _
        simp [countOcc] at hc
      · intro _ _
        omega
  | cons it0 rest ih =>
      intro acc newItems tot h
      simp only [mergeLoop] at h
      cases hf : findStepUp db it0.slipper_id with
      | none => rw [hf] at h; simp at h
      | some s =>
          rw [hf] at h
          simp only [] at h
          have havail : availQty db it0.slipper_id = s.quantity := by
            rw [availQty, findStepUp] at *
            rw [hf]
            rfl
          split at h
          · next hguard => simp at h
          · next hguard =>
              have hle : qtyInAssoc acc it0.slipper_id + clampQty it0.quantity ≤ s.quantity :=
                Nat.le_of_not_lt hguard
              split at h
              · next hpres =>
                  have hne : ¬ acc.find? (fun oi => oi.slipper_id == it0.slipper_id) = none := by
                    intro hn
                    rw [hn] at hpres
                    simp at hpres
                  obtain ⟨K, hii, hiii, hiv, hv⟩ := ih _ _ _ h
                  have htrans : ∀ sd : Nat,
                      ((updateAssocItem acc it0.slipper_id (clampQty it0.quantity) s.price).find?
                        (fun oi => oi.slipper_id == sd) = none ↔
                      acc.find? (fun oi => oi.slipper_id == sd) = none) := by
                    intro sd
                    rw [assoc_absent_iff, assoc_absent_iff, updateAssocItem_keys]
                  refine ⟨?_, ?_, ?_, ?_, ?_⟩
                  · rw [K, updateAssocItem_keys]
                  · intro hc0
                    rw [countOcc_cons] at hc0
                    have hsid : ¬ it0.slipper_id = sid := by
                      intro c
                      rw [if_pos c] at hc0
                      omega
                    have hc0' : countOcc rest sid = 0 := by
                      rw [if_neg hsid] at hc0
                      omega
                    rw [hii hc0']
                    exact qtyInAssoc_update_other acc it0.slipper_id (clampQty it0.quantity)
                      s.price sid (fun c => hsid c.symm)
                  · intro hcpos hpres2
                    by_cases hsid : sid = it0.slipper_id
                    · subst hsid
                      have hupd : qtyInAssoc
                          (updateAssocItem acc it0.slipper_id (clampQty it0.quantity) s.price)
                            it0.slipper_id
                          = qtyInAssoc acc it0.slipper_id + clampQty it0.quantity :=
                        qtyInAssoc_update_self acc it0.slipper_id (clampQty it0.quantity)
                          s.price hpres2
                      by_cases hrest : countOcc rest it0.slipper_id = 0
                      · rw [hii hrest, hupd, havail]
                        exact hle
                      · exact hiii (Nat.pos_of_ne_zero hrest)
                          (fun hn => hpres2 ((htrans _).mp hn))
                    · have hcpos' : 0 < countOcc rest sid := by
                        rw [countOcc_cons, if_neg (fun c => hsid c.symm)] at hcpos
                        omega
                      exact hiii hcpos' (fun hn => hpres2 ((htrans sid).mp hn))
                  · intro hor
                    cases hor with
                    | inl hpres2 =>
                        exact hiv (Or.inl (fun hn => hpres2 ((htrans sid).mp hn)))
                    | inr hc0 =>
                        rw [countOcc_cons] at hc0
                        have hsid : ¬ it0.slipper_id = sid := by
                          intro c
                          rw [if_pos c] at hc0
                          omega
                        have hc0' : countOcc rest sid = 0 := by
                          rw [if_neg hsid] at hc0
                          omega
                        exact hiv (Or.inr hc0')
                  · intro habs hc1
                    by_cases hsid : sid = it0.slipper_id
                    · rw [hsid] at habs
                      exact absurd habs hne
                    · have hc1' : countOcc rest sid ≤ 1 := by
                        rw [countOcc_cons, if_neg (fun c => hsid c.symm)] at hc1
                        omega
                      exact hv ((htrans sid).mpr habs) hc1'
              · next hnpres =>
                  have habs0 : acc.find? (fun oi => oi.slipper_id == it0.slipper_id) = none := by
                    cases hcase : acc.find? (fun oi => oi.slipper_id == it0.slipper_id) with
                    | none => rfl
                    | some v =>
                        rw [hcase] at hnpres
                        simp at hnpres
                  obtain ⟨K, hii, hiii, hiv, hv⟩ := ih _ _ _ h
                  refine ⟨K, ?_, ?_, ?_, ?_⟩
                  · intro hc0
                    rw [countOcc_cons] at hc0
                    have hsid : ¬ it0.slipper_id = sid := by
                      intro c
                      rw [if_pos c] at hc0
                      omega
                    have hc0' : countOcc rest sid = 0 := by
                      rw [if_neg hsid] at hc0
                      omega
                    exact hii hc0'
                  · intro hcpos hpres2
                    by_cases hsid : sid = it0.slipper_id
                    · rw [hsid] at hpres2
                      exact absurd habs0 hpres2
                    · have hcpos' : 0 < countOcc rest sid := by
                        rw [countOcc_cons, if_neg (fun c => hsid c.symm)] at hcpos
                        omega
                      exact hiii hcpos' hpres2
                  · intro hor
                    cases hor with
                    | inl hpres2 =>
                        by_cases hsid : sid = it0.slipper_id
                        · rw [hsid] at hpres2
                          exact absurd habs0 hpres2
                        · rw [hiv (Or.inl hpres2), sumQty_append, sumQty_cons,
                            if_neg (fun c => hsid c.symm)]
                          have h0 : sumQty ([] : List OrderItem) sid = 0 := rfl
                          omega
                    | inr hc0 =>
                        rw [countOcc_cons] at hc0
                        have hsid : ¬ it0.slipper_id = sid := by
                          intro c
                          rw [if_pos c] at hc0
                          omega
                        have hc0' : countOcc rest sid = 0 := by
                          rw [if_neg hsid] at hc0
                          omega
                        rw [hiv (Or.inr hc0'), sumQty_append, sumQty_cons, if_neg hsid]
                        have h0 : sumQty ([] : List OrderItem) sid = 0 := rfl
                        omega
                  · intro habs hc1
                    by_cases hsid : sid = it0.slipper_id
                    · have hrest0 : countOcc rest sid = 0 := by
                        rw [countOcc_cons, if_pos hsid.symm] at hc1
                        omega
                      rw [hiv (Or.inr hrest0), sumQty_append, sumQty_cons, if_pos hsid.symm]
                      have hz : qtyInAssoc acc it0.slipper_id = 0 := by
                        rw [qtyInAssoc, habs0]
                        rfl
                      have hbound : clampQty it0.quantity ≤ availQty db sid := by
                        rw [hsid, havail]
                        omega
                      have h0 : sumQty ([] : List OrderItem) sid = 0 := rfl
                      show sumQty newItems sid +
                          (clampQty it0.quantity + sumQty ([] : List OrderItem) sid)
                          ≤ sumQty newItems sid + availQty db sid
                      omega
                    · have hc1' : countOcc rest sid ≤ 1 := by
                        rw [countOcc_cons, if_neg (fun c => hsid c.symm)] at hc1
                        omega
                      have hrec := hv habs hc1'
                      rw [sumQty_append, sumQty_cons, if_neg (fun c => hsid c.symm)] at hrec
                      have h0 : sumQty ([] : List OrderItem) sid = 0 := rfl
                      omega

/-- Merge-path stock invariant: on a target order with one row per product,
and a request whose repeated products all have a loaded row in the target,
a successful merge persists, for every requested product, at most the stock
available at validation time. -/
theorem mergeInto_stock (db : DB) (t : Order) (ord : OrderCreate) (o : Order) (db2 : DB)
    (hnd : ((db.orderItems.filter (fun it => it.order_id == t.id)).map
      (fun oi => oi.slipper_id)).Nodup)
    (hdup : ∀ sid, 1 < countOcc ord.items sid →
      sid ∈ (db.orderItems.filter (fun it => it.order_id == t.id)).map
        (fun oi => oi.slipper_id))
    (h : mergeInto db t ord = (Except.ok o, db2)) :
    ∀ sid, sid ∈ ord.items.map (fun it => it.slipper_id) →
      orderQty db2 o.id sid ≤ availQty db sid := by
  unfold mergeInto at h
  simp only [] at h
  cases hml : mergeLoop db t.id ord.items
      (db.orderItems.filter (fun it => it.order_id == t.id)) [] 0 with
  | error e => rw [hml] at h; simp at h
  | ok r =>
      obtain ⟨accF, newF, newTotal⟩ := r
      rw [hml] at h
      simp only [] at h
      simp only [Prod.mk.injEq, Except.ok.injEq] at h
      obtain ⟨ho, hdb⟩ := h
      subst ho
      subst hdb
      intro sid hsid
      have hocc : 0 < countOcc ord.items sid := by
        obtain ⟨it, hit, hsl⟩ := List.mem_map.mp hsid
        have hmem : it ∈ ord.items.filter (fun x => x.slipper_id == sid) :=
          List.mem_filter.mpr ⟨hit, by simp [hsl]⟩
        rw [countOcc]
        exact List.length_pos.mpr (fun he => by rw [he] at hmem; cases hmem)
      obtain ⟨K, hii, hiii, hiv, hv⟩ :=
        mergeLoop_bounds db t.id ord.items accF newF newTotal sid _ _ _ hml
      have hids0 : ∀ it ∈ db.orderItems.filter (fun it => it.order_id == t.id),
          it.order_id = t.id := by
        intro it hit
        have h2 := (List.mem_filter.mp hit).2
        simpa using h2
      obtain ⟨hidsA, hidsN⟩ :=
        mergeLoop_order_ids db t.id ord.items accF newF newTotal _ _ _ hml hids0
          (fun it hit => absurd hit (List.not_mem_nil it))
      show (((db.orderItems.filter (fun it => it.order_id != t.id) ++ accF ++ newF).filter
          (fun it => it.order_id == t.id && it.slipper_id == sid)).map
            (fun it => it.quantity)).sum ≤ availQty db sid
      rw [List.filter_append, List.filter_append, List.map_append, List.map_append,
        List.sum_append, List.sum_append]
      have hA : (db.orderItems.filter (fun it => it.order_id != t.id)).filter
          (fun it => it.order_id == t.id && it.slipper_id == sid) = [] := by
        rw [List.filter_eq_nil_iff]
        intro it hit hc
        have h1 := (List.mem_filter.mp hit).2
        have h2 : (it.order_id == t.id) = true := ((Bool.and_eq_true _ _).mp hc).1
        have h3 : it.order_id = t.id := by simpa using h2
        simp [bne, h3] at h1
      have hB : accF.filter (fun it => it.order_id == t.id && it.slipper_id == sid) =
          accF.filter (fun it => it.slipper_id == sid) := by
        apply List.filter_congr
        intro x hx
        have h4 := hidsA x hx
        simp [h4]
      have hC : newF.filter (fun it => it.order_id == t.id && it.slipper_id == sid) =
          newF.filter (fun it => it.slipper_id == sid) := by
        apply List.filter_congr
        intro x hx
        have h4 := hidsN x hx
        simp [h4]
      rw [hA, hB, hC]
      have hsumA : ((accF.filter (fun it => it.slipper_id == sid)).map
          (fun it => it.quantity)).sum = sumQty accF sid := rfl
      have hsumN : ((newF.filter (fun it => it.slipper_id == sid)).map
          (fun it => it.quantity)).sum = sumQty newF sid := rfl
      rw [hsumA, hsumN]
      simp only [List.map_nil, List.sum_nil, Nat.zero_add]
      by_cases hpres : (db.orderItems.filter (fun it => it.order_id == t.id)).find?
          (fun oi => oi.slipper_id == sid) = none
      · have hA0 : accF.find? (fun oi => oi.slipper_id == sid) = none := by
          rw [assoc_absent_iff, K]
          exact (assoc_absent_iff _ _).mp hpres
        have hz : sumQty accF sid = 0 := sumQty_of_absent accF sid hA0
        have hc1 : countOcc ord.items sid ≤ 1 := by
          by_contra hgt
          push_neg at hgt
          exact (assoc_absent_iff _ _).mp hpres (hdup sid hgt)
        have hbound := hv hpres hc1
        have h0 : sumQty ([] : List OrderItem) sid = 0 := rfl
        rw [hz]
        omega
      · have hiv2 := hiv (Or.inl hpres)
        have h0 : sumQty ([] : List OrderItem) sid = 0 := rfl
        have hacc := hiii hocc hpres
        have hndF : (accF.map (fun oi => oi.slipper_id)).Nodup := by
          rw [K]
          exact hnd
        have heq := sumQty_eq_qtyInAssoc accF sid hndF
        rw [hiv2, h0, heq]
        omega

/-- **C3 (amended).** Stock invariant of create_order. Fresh path: on a
store whose rows do not use the fresh order id yet, a successfully created
order holds, for every product, at most the stock available at validation
time. Merge path: the same holds for every requested product, provided the
merge target has one row per product and every product repeated across the
incoming lines already has a row in the target — without that last proviso
the claim is false (see the counterexample): the index of existing items is
built once and never extended, so duplicate incoming lines of a brand-new
product are each validated against the untouched index and oversell. -/
theorem c3_stock_invariant (db : DB) (ord : OrderCreate) (idk : Option String)
    (now : Nat) (o : Order) (db2 : DB) :
    ((shortLookup db ord.user_id idk = none) →
      (∀ it ∈ db.orderItems, it.order_id ≠ db.nextOrderId) →
      create_order db ord idk false now = (Except.ok o, db2) →
      ∀ sid, orderQty db2 o.id sid ≤ availQty db sid) ∧
    (∀ t : Order,
      shortLookup db ord.user_id idk = none →
      mergeCandidate db ord.user_id (now - MERGE_WINDOW_SECONDS) = some t →
      ((db.orderItems.filter (fun it => it.order_id == t.id)).map
        (fun oi => oi.slipper_id)).Nodup →
      (∀ sid, 1 < countOcc ord.items sid →
        sid ∈ (db.orderItems.filter (fun it => it.order_id == t.id)).map
          (fun oi => oi.slipper_id)) →
      create_order db ord idk true now = (Except.ok o, db2) →
      ∀ sid, sid ∈ ord.items.map (fun it => it.slipper_id) →
        orderQty db2 o.id sid ≤ availQty db sid) := by
  constructor
  · intro hs hfresh h sid
    unfold create_order at h
    rw [hs] at h
    simp only [] at h
    rw [if_neg (show ¬((false : Bool) = true) by decide)] at h
    simp only [] at h
    exact createFresh_stock db ord idk now o db2 hfresh h sid
  · intro t hs hmc hnd hdup h sid hsid
    unfold create_order at h
    rw [hs] at h
    simp only [] at h
    rw [if_pos trivial] at h
    rw [hmc] at h
    simp only [] at h
    exact mergeInto_stock db t ord o db2 hnd hdup h sid hsid

/-- Pending order targeted by the merge fallback in the C3 counterexample
store. -/
def tC3 : Order :=
  { id := 1, order_code := "1", user_id := 7, status := OrderStatus.PENDING,
    total_amount := 0, notes := none, idempotency_key := none,
    payment_uuid := none, created_at := 350 }

/-- Store of the C3 counterexample: one product with stock 5, one recent
pending order of the same user with no item rows yet. -/
def dbC3 : DB :=
  { slippers := [{ id := 1, quantity := 5, price := 10 }], orders := [tC3],
    orderItems := [], carts := [], cartItems := [], payments := [],
    nextOrderId := 2, nextCartId := 1, nextCartItemId := 1 }

/-- Request of the C3 counterexample: two lines of the same brand-new
product, three units each, against stock five. -/
def ordC3 : OrderCreate :=
  { order_id := none, user_id := 7,
    items := [{ slipper_id := 1, quantity := 3, notes := none },
              { slipper_id := 1, quantity := 3, notes := none }],
    notes := none }

/-- Counterexample to C3 as stated: on the merge path, duplicate incoming
lines of a product with no existing row in the target order are each
validated against the never-extended index of existing items, so the
returned order ends with aggregated quantity 6 of a product whose stock
read at validation time was 5. -/
theorem c3_counterexample :
    (create_order dbC3 ordC3 none true 400).1 =
      Except.ok { tC3 with total_amount := 60 } ∧
    orderQty (create_order dbC3 ordC3 none true 400).2 1 1 = 6 ∧
    availQty dbC3 1 = 5 ∧
    ¬ orderQty (create_order dbC3 ordC3 none true 400).2 1 1 ≤ availQty dbC3 1 := by
  refine ⟨?_, ?_, by decide, ?_⟩
  · with_unfolding_all decide
  · with_unfolding_all decide
  · with_unfolding_all decide

/-- Merge target of the C3 witness. -/
def tW3 : Order :=
  { id := 1, order_code := "1", user_id := 7, status := OrderStatus.PENDING,
    total_amount := 20, notes := none, idempotency_key := none,
    payment_uuid := none, created_at := 350 }

/-- Store of the C3 witness: one product with stock 5, a recent pending
order of the user already holding two units of it. -/
def dbW3 : DB :=
  { slippers := [{ id := 1, quantity := 5, price := 10 }], orders := [tW3],
    orderItems := [{ order_id := 1, slipper_id := 1, quantity := 2,
                     unit_price := 10, total_price := 20, notes := none }],
    carts := [], cartItems := [], payments := [],
    nextOrderId := 2, nextCartId := 1, nextCartItemId := 1 }

/-- Request of the C3 witness: two more units of the product. -/
def ordW3 : OrderCreate :=
  { order_id := none, user_id := 7,
    items := [{ slipper_id := 1, quantity := 2, notes := none }], notes := none }

/-- Order returned by the C3 witness run: the merge target with the
recomputed total. -/
def oW3 : Order := { tW3 with total_amount := 40 }

/-- Witness for C3 (amended), merge conjunct: merging two more units into
an order already holding two leaves four units stored, within the stock of
five. -/
theorem c3_witness :
    orderQty (create_order dbW3 ordW3 none true 400).2 oW3.id 1 ≤ availQty dbW3 1 :=
  (c3_stock_invariant dbW3 ordW3 none 400 oW3
      (create_order dbW3 ordW3 none true 400).2).2
    tW3 rfl (by with_unfolding_all decide) (by with_unfolding_all decide)
    (by
      intro sid hgt
      have hle : countOcc ordW3.items sid ≤ 1 := List.length_filter_le _ _
      omega)
    (by with_unfolding_all decide)
    1 (by with_unfolding_all decide)

end App
